import Mathlib

/-!
Verification of the BRACE configuration-language compiler
(lexer/parser/analyzer/emitter pipeline, Go implementation).

The Go sources are shallowly embedded: each Go function becomes a pure
Lean function of the same name (receiver state threaded explicitly),
machine integers become `Int` with explicit 64-bit range checks where Go
range-checks, Go `error` results become `Except`/`Option`, and the
in-place AST mutation performed by the analyzer becomes a function
returning the updated AST.  Go's `map[string]T` values are modelled as
association lists with insert-or-replace update; the code never iterates
over these maps except where noted, so association-list order is not an
observable except through the JSON serializer, which sorts keys (as
`encoding/json` does).

Programs are modelled at the token level: `compileTokens` is
`Compiler.compileWithFilename` starting from the parser phase, the lexer
having produced the token list (token positions, used only for error
message formatting in the excluded error reporter, are dropped, and error
lists carry the raw message strings).
-/

namespace Brace

/-- Model of Go `float64` values as produced by `strconv.ParseFloat`:
`finite num pow10` carries the exact decimal value `num / 10^pow10` of
the parsed literal (IEEE-754 rounding to the nearest representable
double is abstracted away, and the scaled-decimal representation is not
normalized; no theorem below depends on either). -/
inductive GoFloat where
  | finite (num : ℤ) (pow10 : ℕ)
  | inf (neg : Bool)
  | nan
deriving DecidableEq

/-- The payload of `ast.NumberLiteral.Value`, a Go `interface{}` holding
either an `int64` or a `float64`. -/
inductive NumValue where
  | int (i : ℤ)
  | float (f : GoFloat)
deriving DecidableEq

/-- A Go `interface{}` value as it flows through the analyzer's constant
table, the resolved-value slots and the emitter's output tree.
`vnil` is the Go `nil` interface (the value of a BRACE `null`, and also
the zero value of an unresolved slot).  `vmap` is a `map[string]interface{}`
modelled as an insert-or-replace association list; `varr` is
`[]interface{}`. -/
inductive GoValue where
  | vstr (s : String)
  | vint (i : ℤ)
  | vfloat (f : GoFloat)
  | vbool (b : Bool)
  | vnil
  | vmap (pairs : List (String × GoValue))
  | varr (elems : List GoValue)

/-- Lookup in a `map[string]T` modelled as an association list. -/
def alistLookup {α : Type} (l : List (String × α)) (k : String) : Option α :=
  match l with
  | [] => none
  | (k2, v) :: rest => if k2 = k then some v else alistLookup rest k

/-- `m[k] = v` on a `map[string]T` modelled as an association list:
replace the existing binding or append a new one. -/
def alistSet {α : Type} (l : List (String × α)) (k : String) (v : α) :
    List (String × α) :=
  match l with
  | [] => [(k, v)]
  | (k2, v2) :: rest =>
      if k2 = k then (k2, v) :: rest else (k2, v2) :: alistSet rest k v

/-! ### Models of the `strings`/`strconv` standard-library functions used
by the code (implemented over the character list so they evaluate by
kernel reduction) -/

/-- Go `unicode.IsSpace` restricted to ASCII whitespace (the only
whitespace a BRACE token's text can contain). -/
def goIsSpace (c : Char) : Bool :=
  c = ' ' ∨ c = '\t' ∨ c = '\n' ∨ c = '\x0b' ∨ c = '\x0c' ∨ c = '\r'

/-- Model of `strings.TrimSpace`. -/
def goTrimSpace (s : String) : String :=
  String.mk (((s.toList.dropWhile goIsSpace).reverse.dropWhile goIsSpace).reverse)

/-- Model of `strings.Contains(s, string(c))` for a single character. -/
def containsChar (s : String) (c : Char) : Bool := s.toList.contains c

/-- ASCII lower-casing of one character (`strconv`'s `lower`). -/
def lowerChar (c : Char) : Char :=
  if 'A' ≤ c ∧ c ≤ 'Z' then Char.ofNat (c.toNat + 32) else c

/-- Model of `strconv.underscoreOK`: digit-group underscores must
appear only between digits or between a base prefix and a digit.  The
`saw` sentinel is the character class last seen, exactly as in the Go
source: `^` start of number, `0` digit or base prefix, `_` underscore,
`!` anything else. -/
def underscoreOK (s : String) : Bool :=
  let cs :=
    match s.toList with
    | '+' :: rest => rest
    | '-' :: rest => rest
    | cs => cs
  match cs with
  | '0' :: p :: rest =>
      if lowerChar p = 'b' ∨ lowerChar p = 'o' ∨ lowerChar p = 'x' then
        go (lowerChar p = 'x') rest '0'
      else go false ('0' :: p :: rest) '^'
  | _ => go false cs '^'
where
  go (hex : Bool) : List Char → Char → Bool
    | [], saw => saw ≠ '_'
    | c :: rest, saw =>
        if ('0' ≤ c ∧ c ≤ '9') ∨ (hex ∧ 'a' ≤ lowerChar c ∧ lowerChar c ≤ 'f') then
          go hex rest '0'
        else if c = '_' then
          if saw ≠ '0' then false else go hex rest '_'
        else if saw = '_' then false
        else go hex rest '!'

/-- Go's `<=` on strings: byte-wise lexicographic order (BRACE keys are
ASCII, where byte order and code-point order agree). -/
def goStringLe (a b : String) : Bool := go a.toList b.toList
where
  go : List Char → List Char → Bool
    | [], _ => true
    | _ :: _, [] => false
    | c :: cr, d :: dr => if c = d then go cr dr else decide (c < d)

/-- Inserts a string into a list sorted by `goStringLe`, keeping it
sorted. -/
def insertSorted (s : String) : List String → List String
  | [] => [s]
  | t :: rest => if goStringLe s t then s :: t :: rest else t :: insertSorted s rest

/-- Sorting as `sort.Strings` does (map keys are distinct, so any
comparison sort yields this unique `goStringLe`-sorted sequence). -/
def sortStrings : List String → List String
  | [] => []
  | s :: rest => insertSorted s (sortStrings rest)

/-- Numeric value of a decimal digit character, if it is one. -/
def digitVal (c : Char) : Option ℕ :=
  if '0' ≤ c ∧ c ≤ '9' then some (c.toNat - '0'.toNat) else none

/-- Reads a non-empty all-decimal-digit character list as a natural number. -/
def decDigits : List Char → Option ℕ
  | [] => none
  | cs => go cs 0
where
  go : List Char → ℕ → Option ℕ
    | [], acc => some acc
    | c :: rest, acc =>
        match digitVal c with
        | some d => go rest (acc * 10 + d)
        | none => none

/-- Numeric value of a digit character in hexadecimal. -/
def hexDigitVal (c : Char) : Option ℕ :=
  if '0' ≤ c ∧ c ≤ '9' then some (c.toNat - '0'.toNat)
  else if 'a' ≤ c ∧ c ≤ 'f' then some (c.toNat - 'a'.toNat + 10)
  else if 'A' ≤ c ∧ c ≤ 'F' then some (c.toNat - 'A'.toNat + 10)
  else none

/-- Reads a non-empty character list in the given base (2, 8 or 16). -/
def baseDigits (base : ℕ) : List Char → Option ℕ
  | [] => none
  | cs => go cs 0
where
  go : List Char → ℕ → Option ℕ
    | [], acc => some acc
    | c :: rest, acc =>
        match hexDigitVal c with
        | some d => if d < base then go rest (acc * base + d) else none
        | none => none

/-- Splits an optional leading `+`/`-` sign.  Returns `(negative, rest)`. -/
def splitSign : List Char → Bool × List Char
  | '+' :: rest => (false, rest)
  | '-' :: rest => (true, rest)
  | cs => (false, cs)

/-- Applies the int64 range check Go performs: magnitude `n` with sign
`neg` must fit in a signed 64-bit integer. -/
def int64Check (neg : Bool) (n : ℕ) : Option ℤ :=
  if neg then
    if (n : ℤ) ≤ 2 ^ 63 then some (-(n : ℤ)) else none
  else
    if (n : ℤ) ≤ 2 ^ 63 - 1 then some (n : ℤ) else none

/-- Model of `strconv.ParseInt(s, 10, 64)`: optional sign, one or more
decimal digits, 64-bit signed range check; anything else is an error
(`none`).  (With an explicit base, Go permits no digit-group underscores
and no base prefixes.) -/
def goParseInt10 (s : String) : Option ℤ :=
  let (neg, digits) := splitSign s.toList
  match decDigits digits with
  | some n => int64Check neg n
  | none => none

/-- Model of `strconv.ParseInt(s, 0, 64)` (used by the parser for number
literals): optional sign, then `0x`/`0o`/`0b` prefixes select the base, a
remaining leading `0` selects octal, otherwise decimal; 64-bit signed
range check.  Digit-group underscores are legal in this base-0 form
when `underscoreOK` holds (they are then skipped by the digit scan, so
the parse works on the underscore-stripped text). -/
def goParseInt0 (s : String) : Option ℤ :=
  if s.toList.contains '_' ∧ ¬ underscoreOK s then none
  else
  let (neg, body) := splitSign (s.toList.filter (fun c => ¬ c = '_'))
  let mag :=
    match body with
    | '0' :: [] => some 0
    | '0' :: 'x' :: rest => baseDigits 16 rest
    | '0' :: 'X' :: rest => baseDigits 16 rest
    | '0' :: 'o' :: rest => baseDigits 8 rest
    | '0' :: 'O' :: rest => baseDigits 8 rest
    | '0' :: 'b' :: rest => baseDigits 2 rest
    | '0' :: 'B' :: rest => baseDigits 2 rest
    | '0' :: rest => baseDigits 8 rest
    | rest => decDigits rest
  match mag with
  | some n => int64Check neg n
  | none => none

/-- Collects the maximal run of decimal digits at the head of a character
list, returning the digits and the remainder. -/
def takeDigits : List Char → List Char × List Char
  | [] => ([], [])
  | c :: rest =>
      if ('0' ≤ c ∧ c ≤ '9') then
        let (ds, rem) := takeDigits rest
        (c :: ds, rem)
      else ([], c :: rest)

/-- Decimal mantissa of a float literal: `digits`, `digits.digits`,
`digits.` or `.digits` (at least one digit overall).  Returns the digit
value, the number of fractional digits, and the unconsumed remainder. -/
def parseMantissa (cs : List Char) : Option ((ℕ × ℕ) × List Char) :=
  let (ipart, rest) := takeDigits cs
  match rest with
  | '.' :: rest2 =>
      let (fpart, rest3) := takeDigits rest2
      if ipart = [] ∧ fpart = [] then none
      else
        match decDigits (ipart ++ fpart) with
        | some n => some ((n, fpart.length), rest3)
        | none =>
            -- `ipart ++ fpart` is non-empty and all digits here
            some ((0, fpart.length), rest3)
  | _ =>
      match decDigits ipart with
      | some n => some ((n, 0), rest)
      | none => none

/-- Optional decimal exponent `e`/`E` followed by an optionally signed
non-empty digit run; consumed only when fully well-formed. -/
def parseExponent (cs : List Char) : Option (ℤ × List Char) :=
  match cs with
  | 'e' :: rest => parseSigned rest
  | 'E' :: rest => parseSigned rest
  | _ => some (0, cs)
where
  parseSigned (rest : List Char) : Option (ℤ × List Char) :=
    let (eneg, digits) := splitSign rest
    match decDigits digits with
    | some n => some ((if eneg then -(n : ℤ) else (n : ℤ)), [])
    | none => none

/-- Lower-cases an ASCII character list (for Go's case-insensitive
special float spellings). -/
def asciiLower (cs : List Char) : List Char :=
  cs.map (fun c => if 'A' ≤ c ∧ c ≤ 'Z' then Char.ofNat (c.toNat + 32) else c)

/-- Largest finite `float64` plus half a unit in the last place,
`2^1024 - 2^970` (stated as a literal so comparisons against it are
cheap; `float64OverflowNat_eq` certifies the value): decimal values at
or beyond this magnitude make `strconv.ParseFloat` return `ErrRange`
(and the callers here treat that as failure). -/
def float64OverflowNat : ℕ := 179769313486231580793728971405303415079934132710037826936173778980444968292764750946649017977587207096330286416692887910946555547851940402630657488671505820681908902000708383676273854845817711531764475730270069855571366959622842914819860834936475292719074168444365510704342711559699508093042880177904174497792

theorem float64OverflowNat_eq : float64OverflowNat = 2 ^ 970 * (2 ^ 54 - 1) := by
  norm_num [float64OverflowNat]

/-- Whether a decimal `n / 10^f × 10^e` reaches the `float64` overflow
threshold in magnitude. -/
def floatOverflows (n : ℕ) (f : ℕ) (e : ℤ) : Bool :=
  if (f : ℤ) ≤ e then float64OverflowNat ≤ n * 10 ^ (e - (f : ℤ)).toNat
  else float64OverflowNat * 10 ^ ((f : ℤ) - e).toNat ≤ n

/-- Half the smallest positive subnormal `float64`, scaled: `2^1075`
as a literal (certified by `twoPow1075Nat_eq`); a non-zero value whose
magnitude is at or below `2^-1075` rounds to zero, which
`strconv.ParseFloat` reports as `ErrRange`. -/
def twoPow1075Nat : ℕ := 404804506614621236704990693437834614099113299528284236713802716054860679135990693783920767402874248990374155728633623822779617474771586953734026799881477019843034848553132722728933815484186432682479535356945490137124014966849385397236206711298319112681620113024717539104666829230461005064372655017292012526615415482186989568

theorem twoPow1075Nat_eq : twoPow1075Nat = 2 ^ 1075 := by
  norm_num [twoPow1075Nat]

/-- Whether a non-zero decimal `n / 10^f × 10^e` underflows: rounds to
zero, so `strconv.ParseFloat` reports `ErrRange` (the exact
round-to-even boundary tie is abstracted into the `≤`). -/
def floatUnderflows (n : ℕ) (f : ℕ) (e : ℤ) : Bool :=
  ¬ n = 0 ∧
    (if (f : ℤ) ≤ e then false
     else n * twoPow1075Nat ≤ 10 ^ ((f : ℤ) - e).toNat)

/-- Collects the maximal run of hexadecimal digits at the head of a
character list. -/
def takeHexDigits : List Char → List Char × List Char
  | [] => ([], [])
  | c :: rest =>
      if (hexDigitVal c).isSome then
        let (ds, rem) := takeHexDigits rest
        (c :: ds, rem)
      else ([], c :: rest)

/-- The decimal-mantissa arm of `strconv.ParseFloat`: mantissa with
optional `e`/`E` exponent, fully consumed; overflow and underflow are
`ErrRange`, which the callers here treat as failure. -/
def goParseDecFloat (neg : Bool) (cs : List Char) : Option GoFloat :=
  match parseMantissa cs with
  | some ((n, f), rest) =>
      match parseExponent rest with
      | some (e, []) =>
          if floatOverflows n f e then none
          else if floatUnderflows n f e then none
          else
            let (num, pow10) : ℕ × ℕ :=
              if (f : ℤ) ≤ e then (n * 10 ^ (e - (f : ℤ)).toNat, 0)
              else (n, ((f : ℤ) - e).toNat)
            some (.finite (if neg then -(num : ℤ) else (num : ℤ)) pow10)
      | _ => none
  | none => none

/-- The hexadecimal arm of `strconv.ParseFloat` (input after the `0x`
prefix): hex mantissa with optional hex-digit fraction and a mandatory
`p`/`P` binary exponent; the exact dyadic value `mant × 2^(e - 4f)` is
rendered as a scaled decimal (`1/2^k = 5^k/10^k`); overflow and
underflow are `ErrRange`, treated as failure. -/
def goParseHexFloat (neg : Bool) (cs : List Char) : Option GoFloat :=
  let (ipart, rest) := takeHexDigits cs
  let (fpart, rest2) :=
    match rest with
    | '.' :: r => takeHexDigits r
    | _ => ([], rest)
  if ipart = [] ∧ fpart = [] then none
  else
    match rest2 with
    | [] => none
    | p :: r3 =>
        if lowerChar p = 'p' then
          let (eneg, ds) := splitSign r3
          match decDigits ds with
          | none => none
          | some e0 =>
              match baseDigits 16 (ipart ++ fpart) with
              | none => none
              | some mant =>
                  let e : ℤ := if eneg then -(e0 : ℤ) else (e0 : ℤ)
                  let bexp : ℤ := e - 4 * fpart.length
                  if 0 ≤ bexp then
                    if float64OverflowNat ≤ mant * 2 ^ bexp.toNat then none
                    else
                      let num : ℕ := mant * 2 ^ bexp.toNat
                      some (.finite (if neg then -(num : ℤ) else (num : ℤ)) 0)
                  else
                    let k := (-bexp).toNat
                    if float64OverflowNat * 2 ^ k ≤ mant then none
                    else if ¬ mant = 0 ∧ mant * twoPow1075Nat ≤ 2 ^ k then none
                    else
                      let num : ℕ := mant * 5 ^ k
                      some (.finite (if neg then -(num : ℤ) else (num : ℤ)) k)
        else none

/-- Model of `strconv.ParseFloat(s, 64)` restricted to success/failure
and the exact value of the literal: the special spellings — an
optionally signed, case-insensitive `inf`/`infinity`, and an *unsigned*
`nan` (Go's `special` falls through from a sign only to the infinity
check) — then a decimal or `0x` hexadecimal number, fully consumed,
with digit-group underscores permitted exactly when `underscoreOK`
holds.  A syntactically valid number that overflows `float64` or
rounds to zero fails (Go reports `ErrRange`, which the calling code
treats as a parse failure).  IEEE-754 rounding of the value and the
exact half-ULP boundary ties are abstracted; no theorem below depends
on them. -/
def goParseFloat (s : String) : Option GoFloat :=
  match asciiLower s.toList with
  | ['n', 'a', 'n'] => some .nan
  | _ =>
    let (neg, body) := splitSign s.toList
    match asciiLower body with
    | ['i', 'n', 'f'] => some (.inf neg)
    | ['i', 'n', 'f', 'i', 'n', 'i', 't', 'y'] => some (.inf neg)
    | _ =>
        if body.contains '_' ∧ ¬ underscoreOK s then none
        else
          let digits := body.filter (fun c => ¬ c = '_')
          match digits with
          | '0' :: x :: rest =>
              if lowerChar x = 'x' then goParseHexFloat neg rest
              else goParseDecFloat neg digits
          | _ => goParseDecFloat neg digits

/-! ### The AST (`internal/ast`)

Mutable `ResolvedValue interface{}` slots are carried on the `reference`
and `envDirective` constructors; their Go zero value is the `nil`
interface, i.e. `GoValue.vnil` — note that a slot holding `vnil` is
indistinguishable from an unpopulated slot, exactly as in the Go code.
`goNil` is a `nil` `ast.Expression` interface value (the parser stores
one into an array element or assignment value when a sub-parse failed).
A template-string part is `(isLiteral, content, expr)`, where `expr` is
the Go `Expr` field, `none` when the nil interface. -/

inductive Expression where
  | ident (value : String)
  | stringLit (value : String)
  | numberLit (value : NumValue)
  | booleanLit (value : Bool)
  | nullLit
  | arrayLit (elements : List Expression)
  | objectLit (pairs : List (Expression × Expression))
  | reference (ns name : String) (resolvedValue : GoValue)
  | envDirective (varName : String) (defaultValue : Option Expression)
      (resolvedValue : GoValue)
  | templateStringLit (parts : List (Bool × String × Option Expression))
  | goNil

/-- A template-string part (`ast.TemplateStringPart`). -/
abbrev TemplatePart := Bool × String × Option Expression

/-- Statements: `ast.AssignmentStatement` (name is the identifier's
text), `ast.DirectiveStatement` (its `Body` object literal's pairs; the
empty list doubles for the nil `*ObjectLiteral` of an `@brace`
directive, which no code path reads), `ast.TableStatement`. -/
inductive Statement where
  | assignment (name : String) (value : Expression)
  | directive (name : String) (parameters : List Expression)
      (body : List (Expression × Expression))
  | table (path : List String) (body : List (Expression × Expression))

/-- `ast.Program.Statements`. -/
abbrev Program := List Statement

/-- The Go `%T` type string of an expression node, as printed by the
`cannot evaluate expression type` error messages. -/
def goTypeName : Expression → String
  | .ident _ => "*ast.Identifier"
  | .stringLit _ => "*ast.StringLiteral"
  | .numberLit _ => "*ast.NumberLiteral"
  | .booleanLit _ => "*ast.BooleanLiteral"
  | .nullLit => "*ast.NullLiteral"
  | .arrayLit _ => "*ast.ArrayLiteral"
  | .objectLit _ => "*ast.ObjectLiteral"
  | .reference _ _ _ => "*ast.Reference"
  | .envDirective _ _ _ => "*ast.EnvDirective"
  | .templateStringLit _ => "*ast.TemplateStringLiteral"
  | .goNil => "<nil>"

/-- The Go `%T` type string of an `interface{}` value (used by the
emitter's `object keys must be strings` error). -/
def goValueTypeName : GoValue → String
  | .vstr _ => "string"
  | .vint _ => "int64"
  | .vfloat _ => "float64"
  | .vbool _ => "bool"
  | .vnil => "<nil>"
  | .vmap _ => "map[string]interface \x7b\x7d"
  | .varr _ => "[]interface \x7b\x7d"

/-! ### The Analyzer (`internal/analyzer/analyzer.go`)

The process environment is a function `String → String`; `os.Getenv`
returns `""` both for an unset variable and for one set to the empty
string, so that is the whole interface the analyzer sees. -/

/-- The process environment as seen through `os.Getenv`. -/
abbrev Env := String → String

/-- `Analyzer.constants`: namespace → name → resolved value
(`map[string]map[string]interface{}`). -/
abbrev Constants := List (String × List (String × GoValue))

/-- Looks a `namespace.name` pair up in the constant table. -/
def constTableLookup (consts : Constants) (nsKey name : String) :
    Option GoValue :=
  match alistLookup consts nsKey with
  | some m => alistLookup m name
  | none => none

/-- The namespace actually used for a reference: `global` when the
reference carries none. -/
def defaultNs (ns : String) : String := if ns = "" then "global" else ns

/-- `Analyzer.resolveReferenceValue`: table lookup, or the
`undefined reference` error. -/
def resolveReferenceValue (consts : Constants) (ns name : String) :
    Except String GoValue :=
  let nsKey := defaultNs ns
  match constTableLookup consts nsKey name with
  | some v => .ok v
  | none => .error ("undefined reference: " ++ nsKey ++ "." ++ name)

/-- Coercion of a non-empty environment-variable string, as inlined in
`Analyzer.evaluateEnvDirectiveExpression`: the exact strings
`true`/`false`, then `strconv.ParseInt(value, 10, 64)`, then
`strconv.ParseFloat(value, 64)`, defaulting to the raw string. -/
def envCoerce (value : String) : GoValue :=
  if value = "true" then .vbool true
  else if value = "false" then .vbool false
  else
    match goParseInt10 value with
    | some intVal => .vint intVal
    | none =>
        match goParseFloat value with
        | some floatVal => .vfloat floatVal
        | none => .vstr value

/-- `Analyzer.evaluateExpression`, with
`Analyzer.evaluateEnvDirectiveExpression` inlined at the `EnvDirective`
case (the Go pair of functions is mutually recursive through the `@env`
default expression).  Literals map to their values, `@env` is resolved
against the environment, references are looked up in the constant table;
every other node kind is the `cannot evaluate expression type` error. -/
def aEvaluateExpression (env : Env) (consts : Constants) :
    Expression → Except String GoValue
  | .stringLit v => .ok (.vstr v)
  | .numberLit (.int i) => .ok (.vint i)
  | .numberLit (.float f) => .ok (.vfloat f)
  | .booleanLit b => .ok (.vbool b)
  | .nullLit => .ok .vnil
  | .envDirective varName defaultValue _ =>
      let value := env varName
      if value = "" then
        match defaultValue with
        | some d => aEvaluateExpression env consts d
        | none =>
            .error ("environment variable " ++ varName ++
              " not set and no default provided")
      else .ok (envCoerce value)
  | .reference ns name _ => resolveReferenceValue consts ns name
  | e => .error ("cannot evaluate expression type: " ++ goTypeName e)

/-- `Analyzer.evaluateEnvDirectiveExpression` as a named entry point
(the body is the `EnvDirective` case of `aEvaluateExpression`). -/
def evaluateEnvDirectiveExpression (env : Env) (consts : Constants)
    (varName : String) (defaultValue : Option Expression) :
    Except String GoValue :=
  aEvaluateExpression env consts (.envDirective varName defaultValue .vnil)

/-- The loop body of `Analyzer.processConstDirective`: evaluates each
pair of the `@const` body in order, storing results under the namespace;
pairs whose key is not an identifier are skipped; the first evaluation
error aborts the loop (keeping the constants already stored) and is
reported wrapped in `error evaluating constant`. -/
def processConstPairs (env : Env) (nsKey : String) :
    List (Expression × Expression) → Constants →
    Constants × Option String
  | [], consts => (consts, none)
  | (key, value) :: rest, consts =>
      match key with
      | .ident identValue =>
          match aEvaluateExpression env consts value with
          | .ok resolvedValue =>
              let m := (alistLookup consts nsKey).getD []
              processConstPairs env nsKey rest
                (alistSet consts nsKey (alistSet m identValue resolvedValue))
          | .error msg =>
              (consts, some ("error evaluating constant " ++ identValue ++
                ": " ++ msg))
      | _ => processConstPairs env nsKey rest consts

/-- `Analyzer.processConstDirective`: namespace from an optional leading
string parameter (default `global`), namespace map created if absent,
then the body pairs are evaluated and stored. -/
def processConstDirective (env : Env) (consts : Constants)
    (parameters : List Expression)
    (body : List (Expression × Expression)) :
    Constants × Option String :=
  let nsKey :=
    match parameters with
    | .stringLit s :: _ => s
    | _ => "global"
  let consts1 :=
    match alistLookup consts nsKey with
    | none => alistSet consts nsKey []
    | some _ => consts
  processConstPairs env nsKey body consts1

/-- `Analyzer.processDirective`: dispatch on the directive name.
`brace` only checks its parameter count (any version string accepted);
`env` is a no-op here; unknown names are errors. -/
def processDirective (env : Env) (consts : Constants) (name : String)
    (parameters : List Expression)
    (body : List (Expression × Expression)) :
    Constants × Option String :=
  if name = "const" then processConstDirective env consts parameters body
  else if name = "env" then (consts, none)
  else if name = "brace" then
    if parameters.length ≠ 1 then
      (consts, some "@brace directive expects exactly one parameter")
    else (consts, none)
  else (consts, some ("unknown directive: " ++ name))

/-- The first pass of `Analyzer.Analyze`: processes every top-level
directive statement in order, accumulating the constant table and the
error list. -/
def analyzePass1 (env : Env) : List Statement → Constants →
    Constants × List String
  | [], consts => (consts, [])
  | stmt :: rest, consts =>
      match stmt with
      | .directive name parameters body =>
          let (consts2, errOpt) :=
            processDirective env consts name parameters body
          let (constsF, errs) := analyzePass1 env rest consts2
          (constsF, errOpt.toList ++ errs)
      | _ => analyzePass1 env rest consts

mutual

/-- `Analyzer.resolveReferences` on an expression: fills the
resolved-value slot of every `Reference` (constant-table lookup) and
`EnvDirective` (environment evaluation) node reachable through object
values and array elements, returning the updated node and the errors
appended.  Exactly as in the Go `switch`, object literal *keys* and
template-string parts are not visited. -/
def resolveRefExpr (env : Env) (consts : Constants) :
    Expression → Expression × List String
  | .reference ns name resolvedValue =>
      let nsKey := defaultNs ns
      (match constTableLookup consts nsKey name with
       | some value => (.reference ns name value, [])
       | none =>
           (.reference ns name resolvedValue,
            ["undefined reference: " ++ nsKey ++ "." ++ name]))
  | .envDirective varName defaultValue resolvedValue =>
      (match evaluateEnvDirectiveExpression env consts varName defaultValue with
       | .ok value => (.envDirective varName defaultValue value, [])
       | .error msg => (.envDirective varName defaultValue resolvedValue, [msg]))
  | .objectLit pairs =>
      let (pairs2, errs) := resolveRefPairs env consts pairs
      (.objectLit pairs2, errs)
  | .arrayLit elements =>
      let (elements2, errs) := resolveRefList env consts elements
      (.arrayLit elements2, errs)
  | e => (e, [])

/-- `resolveReferences` over the value side of object-literal pairs. -/
def resolveRefPairs (env : Env) (consts : Constants) :
    List (Expression × Expression) →
    List (Expression × Expression) × List String
  | [] => ([], [])
  | (key, value) :: rest =>
      let (value2, errs1) := resolveRefExpr env consts value
      let (rest2, errs2) := resolveRefPairs env consts rest
      ((key, value2) :: rest2, errs1 ++ errs2)

/-- `resolveReferences` over array elements. -/
def resolveRefList (env : Env) (consts : Constants) :
    List Expression → List Expression × List String
  | [] => ([], [])
  | e :: rest =>
      let (e2, errs1) := resolveRefExpr env consts e
      let (rest2, errs2) := resolveRefList env consts rest
      (e2 :: rest2, errs1 ++ errs2)

end

/-- `Analyzer.resolveReferences` on a statement: assignment values and
table bodies are walked; directive statements have no case in the Go
`switch` and are left untouched. -/
def resolveRefStatement (env : Env) (consts : Constants) :
    Statement → Statement × List String
  | .assignment name value =>
      let (value2, errs) := resolveRefExpr env consts value
      (.assignment name value2, errs)
  | .table path body =>
      let (body2, errs) := resolveRefPairs env consts body
      (.table path body2, errs)
  | s => (s, [])

/-- The second pass of `Analyzer.Analyze`: resolves references in every
statement in order. -/
def analyzePass2 (env : Env) (consts : Constants) :
    List Statement → List Statement × List String
  | [] => ([], [])
  | stmt :: rest =>
      let (stmt2, errs1) := resolveRefStatement env consts stmt
      let (rest2, errs2) := analyzePass2 env consts rest
      (stmt2 :: rest2, errs1 ++ errs2)

/-- `Analyzer.Analyze`: directive pass, then reference-resolution pass;
returns the updated (slot-filled) program and the accumulated error
list.  The Go method reports failure exactly when the list is
non-empty. -/
def analyze (env : Env) (program : Program) : Program × List String :=
  let (consts, errs1) := analyzePass1 env program []
  let (program2, errs2) := analyzePass2 env consts program
  (program2, errs1 ++ errs2)

/-- The full constant table built by the directive pass. -/
def fullConstTable (env : Env) (program : Program) : Constants :=
  (analyzePass1 env program []).1

/-- The error list `Analyzer.Analyze` accumulates; analysis fails iff it
is non-empty. -/
def analysisErrors (env : Env) (program : Program) : List String :=
  (analyze env program).2

/-! ### The Emitter (`internal/transform`, `Transform` over the resolved AST)

The output tree `Transform.output` is a `map[string]interface{}`; as with
the constant table it is modelled as an insert-or-replace association
list.  A Go runtime panic (the unchecked map type assertion in
`processTable`) is a distinguished outcome, separate from a returned
`error`. -/

/-- The emitter's output tree. -/
abbrev Output := List (String × GoValue)

/-- An emitter outcome that is not a value: a returned Go `error`, or a
runtime panic. -/
inductive TransformError where
  | goError (msg : String)
  | panicked (msg : String)

/-- The Go runtime's message for a failed type assertion of `v` to
`map[string]interface{}`. -/
def mapAssertPanicMsg (v : GoValue) : String :=
  "interface conversion: interface \x7b\x7d is " ++ goValueTypeName v ++
    ", not map[string]interface \x7b\x7d"

/-- `fmt.Sprintf("%v", value)` for the scalar values interpolated into
template strings.  Floats, maps and arrays are given a placeholder
rendering (Go's shortest-float and map formatting are not modelled; no
theorem below depends on them). -/
def formatGoValue : GoValue → String
  | .vstr s => s
  | .vint i => toString i
  | .vbool true => "true"
  | .vbool false => "false"
  | .vnil => "<nil>"
  | .vfloat _ => "<float>"
  | .vmap _ => "<map>"
  | .varr _ => "<array>"

mutual

/-- `Transform.evaluateExpression`: literals map to their values,
arrays and objects are evaluated recursively, references and `@env`
directives return their resolved-value slot — with the slot still
holding the nil interface reported as the `unresolved
reference`/`unresolved environment directive` error — identifiers
evaluate to their text, template strings concatenate. -/
def tEvaluateExpression : Expression → Except TransformError GoValue
  | .stringLit v => .ok (.vstr v)
  | .numberLit (.int i) => .ok (.vint i)
  | .numberLit (.float f) => .ok (.vfloat f)
  | .booleanLit b => .ok (.vbool b)
  | .nullLit => .ok .vnil
  | .arrayLit elements =>
      match tEvaluateArray elements with
      | .ok vs => .ok (.varr vs)
      | .error e => .error e
  | .objectLit pairs =>
      match tEvaluateObject pairs [] with
      | .ok m => .ok (.vmap m)
      | .error e => .error e
  | .reference ns name resolvedValue =>
      match resolvedValue with
      | .vnil =>
          let fullName := if ns = "" then name else ns ++ "." ++ name
          .error (.goError ("unresolved reference: " ++ fullName))
      | v => .ok v
  | .envDirective varName _ resolvedValue =>
      match resolvedValue with
      | .vnil =>
          .error (.goError ("unresolved environment directive: @env(\"" ++
            varName ++ "\")"))
      | v => .ok v
  | .ident v => .ok (.vstr v)
  | .templateStringLit parts =>
      match tEvaluateTemplateParts parts with
      | .ok s => .ok (.vstr s)
      | .error e => .error e
  | .goNil => .error (.goError "cannot evaluate expression type: <nil>")

/-- `Transform.evaluateArray`: element-wise evaluation into an ordered
sequence. -/
def tEvaluateArray : List Expression → Except TransformError (List GoValue)
  | [] => .ok []
  | e :: rest =>
      match tEvaluateExpression e with
      | .ok v =>
          match tEvaluateArray rest with
          | .ok vs => .ok (v :: vs)
          | .error err => .error err
      | .error err => .error err

/-- `Transform.evaluateObject`: per pair, the key expression is
evaluated and must yield a string, then the value is evaluated and
stored (`result[keyString] = valueResult`, so a repeated key keeps the
later value). -/
def tEvaluateObject : List (Expression × Expression) → Output →
    Except TransformError Output
  | [], result => .ok result
  | (key, value) :: rest, result =>
      match tEvaluateExpression key with
      | .ok keyVal =>
          match keyVal with
          | .vstr keyString =>
              match tEvaluateExpression value with
              | .ok valueResult =>
                  tEvaluateObject rest (alistSet result keyString valueResult)
              | .error err => .error err
          | _ =>
              .error (.goError ("object keys must be strings, got " ++
                goValueTypeName keyVal))
      | .error err => .error err

/-- `Transform.evaluateTemplateString`: literal parts are appended
verbatim, interpolated parts are evaluated (errors wrapped as
`error in template interpolation`) and stringified with `%v`. -/
def tEvaluateTemplateParts : List TemplatePart →
    Except TransformError String
  | [] => .ok ""
  | (isLiteral, content, exprOpt) :: rest =>
      if isLiteral then
        match tEvaluateTemplateParts rest with
        | .ok s => .ok (content ++ s)
        | .error err => .error err
      else
        let inner :=
          match exprOpt with
          | some e => tEvaluateExpression e
          | none => .error (.goError "cannot evaluate expression type: <nil>")
        match inner with
        | .ok v =>
            match tEvaluateTemplateParts rest with
            | .ok s => .ok (formatGoValue v ++ s)
            | .error err => .error err
        | .error (.goError msg) =>
            .error (.goError ("error in template interpolation: " ++ msg))
        | .error (.panicked msg) => .error (.panicked msg)

end

/-- `Transform.processTable`'s walk along the dotted path: the final
segment receives the evaluated body; an intermediate segment whose slot
is absent *or holds the nil interface* gets a fresh nested map, an
existing map is descended into (and so preserved and merged into), and
any other existing value hits the unchecked
`current[pathSegment].(map[string]interface{})` type assertion — a
runtime panic. -/
def processTablePath (body : List (Expression × Expression)) :
    List String → Output → Except TransformError Output
  | [], current => .ok current
  | [lastSegment], current =>
      (match tEvaluateObject body [] with
       | .ok tableContent => .ok (alistSet current lastSegment (.vmap tableContent))
       | .error err => .error err)
  | pathSegment :: rest, current =>
      let descend (child : Output) : Except TransformError Output :=
        match processTablePath body rest child with
        | .ok child2 => .ok (alistSet current pathSegment (.vmap child2))
        | .error err => .error err
      match alistLookup current pathSegment with
      | none => descend []
      | some .vnil => descend []
      | some (.vmap m) => descend m
      | some v => .error (.panicked (mapAssertPanicMsg v))

/-- `Transform.processStatement`: assignments contribute a root key,
table statements are installed along their path, directive statements
contribute nothing. -/
def processStatement (output : Output) :
    Statement → Except TransformError Output
  | .assignment name value =>
      (match tEvaluateExpression value with
       | .ok v => .ok (alistSet output name v)
       | .error err => .error err)
  | .table path body => processTablePath body path output
  | .directive _ _ _ => .ok output

/-- The statement loop of `Transform.Transform`: statements processed in
order, the first error aborting. -/
def transformProgram : Program → Output → Except TransformError Output
  | [], output => .ok output
  | stmt :: rest, output =>
      match processStatement output stmt with
      | .ok output2 => transformProgram rest output2
      | .error err => .error err

/-- The key sequence in which `encoding/json` serializes a
`map[string]interface{}`: sorted lexicographically, independent of the
order in which the compiler inserted the keys. -/
def jsonKeys (output : Output) : List String :=
  sortStrings (output.map Prod.fst)

/-- The order in which the emitter's statements contributed the root
keys (first contribution of each key). -/
def outputKeys (output : Output) : List String :=
  output.map Prod.fst

/-! ### Tokens (`internal/token`) and the Parser (`internal/parser/parser.go`)

Token positions (line/column/offset/length) feed only the excluded
error-reporter formatting and are dropped; parser errors are kept as
their raw message strings (`Parser.Errors` returns a non-empty list
exactly when the raw list is non-empty, which is all the compiler
inspects).  The parser's recursive descent is embedded with an explicit
fuel argument; `parseProgram` supplies fuel ample for its token list. -/

inductive TokenType where
  | illegal | eof | comment
  | ident | string | number
  | kwTrue | kwFalse | kwNull
  | assign | colon | comma | semicolon
  | lparen | rparen | lbrace | rbrace | lbracket | rbracket
  | atSign | hash | dot
  | templateString
deriving DecidableEq

/-- `token.TokenType.String()`. -/
def typeString : TokenType → String
  | .illegal => "ILLEGAL"
  | .eof => "EOF"
  | .comment => "COMMENT"
  | .ident => "IDENT"
  | .string => "STRING"
  | .number => "NUMBER"
  | .kwTrue => "TRUE"
  | .kwFalse => "FALSE"
  | .kwNull => "NULL"
  | .assign => "="
  | .colon => ":"
  | .comma => ","
  | .semicolon => ";"
  | .lparen => "("
  | .rparen => ")"
  | .lbrace => "\x7b"
  | .rbrace => "\x7d"
  | .lbracket => "["
  | .rbracket => "]"
  | .atSign => "@"
  | .hash => "#"
  | .dot => "."
  | .templateString => "TEMPLATE_STRING"

structure Token where
  type : TokenType
  literal : String
deriving DecidableEq

/-- The token the exhausted lexer returns forever. -/
def eofToken : Token := ⟨.eof, ""⟩

/-- The parser state: current and peek tokens, the not-yet-read tokens,
and the accumulated error messages. -/
structure ParserState where
  curToken : Token
  peekToken : Token
  rest : List Token
  errors : List String

/-- `Parser.nextToken`. -/
def pNextToken (p : ParserState) : ParserState :=
  { curToken := p.peekToken
    peekToken := p.rest.headD eofToken
    rest := p.rest.tail
    errors := p.errors }

/-- `parser.New`: two `nextToken` calls prime `curToken`/`peekToken`. -/
def parserInit (toks : List Token) : ParserState :=
  { curToken := toks.headD eofToken
    peekToken := (toks.drop 1).headD eofToken
    rest := toks.drop 2
    errors := [] }

/-- `Parser.addError` (position dropped). -/
def addError (p : ParserState) (msg : String) : ParserState :=
  { p with errors := p.errors ++ [msg] }

/-- `Parser.expectPeek`: advance past an expected token type or record
the `expected next token` error. -/
def expectPeek (p : ParserState) (t : TokenType) : Bool × ParserState :=
  if p.peekToken.type = t then (true, pNextToken p)
  else
    (false,
     addError p ("expected next token to be " ++ typeString t ++ ", got " ++
       typeString p.peekToken.type ++ " instead"))

/-- `Parser.parseNumberLiteral`'s value logic: literals without a
decimal point go through `strconv.ParseInt(lit, 0, 64)` and yield an
`int64`; literals containing one go through `strconv.ParseFloat` and
yield a `float64`. -/
def parseNumberLiteralValue (lit : String) : Option NumValue :=
  if ¬ containsChar lit '.' then
    match goParseInt0 lit with
    | some value => some (.int value)
    | none => none
  else
    match goParseFloat lit with
    | some value => some (.float value)
    | none => none

/-- The parser's `isLetter` (letters and underscore). -/
def pIsLetter (c : Char) : Bool :=
  ('a' ≤ c ∧ c ≤ 'z') ∨ ('A' ≤ c ∧ c ≤ 'Z') ∨ c = '_'

/-- The parser's `isDigit`. -/
def pIsDigit (c : Char) : Bool := '0' ≤ c ∧ c ≤ '9'

/-- `parser.isValidIdentifier`. -/
def isValidIdentifier (s : String) : Bool :=
  match s.toList with
  | [] => false
  | c :: rest => (pIsLetter c ∨ c = '_') ∧ rest.all fun d => pIsLetter d ∨ pIsDigit d ∨ d = '_'

/-- Index of the first occurrence of a two-character marker `a b` in a
character list (`strings.Index` for the `${` search). -/
def findSub2 (a b : Char) : List Char → Option ℕ
  | [] => none
  | [_] => none
  | c :: d :: rest =>
      if c = a ∧ d = b then some 0
      else (findSub2 a b (d :: rest)).map (· + 1)

/-- Index of the first occurrence of a character (`strings.Index` for
the closing `}` search and the namespace-dot split). -/
def findChar (a : Char) : List Char → Option ℕ
  | [] => none
  | c :: rest => if c = a then some 0 else (findChar a rest).map (· + 1)

/-- `Parser.parseInterpolationExpression`: the best-effort mini-parser
for `${ ... }` contents — a leading `:` makes a reference (namespace
split at the first dot), then a valid identifier, then a double-quoted
string (for a 1-character `"` content the Go slice `content[1:0]` would
panic; the model returns the empty string, a case no theorem touches),
then anything `strconv.ParseFloat` accepts becomes a *float* number
literal, and anything else falls back to an identifier. -/
def parseInterpolationExpression (content : String) : Expression :=
  let cs := (goTrimSpace content).toList
  match cs with
  | ':' :: refContent =>
      (match findChar '.' refContent with
       | some dotIndex =>
           .reference (String.mk (refContent.take dotIndex))
             (String.mk (refContent.drop (dotIndex + 1))) .vnil
       | none => .reference "" (String.mk refContent) .vnil)
  | _ =>
      let c := String.mk cs
      if isValidIdentifier c then .ident c
      else if (cs.headD ' ' = '"') ∧ (cs.getLastD ' ' = '"') then
        .stringLit (String.mk ((cs.drop 1).dropLast))
      else
        match goParseFloat c with
        | some num => .numberLit (.float num)
        | none => .ident c

/-- The scanning loop of `Parser.parseTemplateStringParts`: literal text
up to each `${`, then the window contents handed to
`parseInterpolationExpression`; a `${` with no closing `}` records the
`unclosed interpolation` error and stops. -/
def templatePartsLoop (fuel : ℕ) (s : List Char) (acc : List TemplatePart) :
    List TemplatePart × Option String :=
  match fuel with
  | 0 => (acc, none)
  | fuel + 1 =>
      match findSub2 '$' '\x7b' s with
      | none =>
          if s ≠ [] then (acc ++ [(true, String.mk s, none)], none) else (acc, none)
      | some start =>
          let acc2 :=
            if start > 0 then acc ++ [(true, String.mk (s.take start), none)]
            else acc
          let s2 := s.drop (start + 2)
          match findChar '\x7d' s2 with
          | none => (acc2, some "unclosed interpolation in template string")
          | some stop =>
              let exprContent := String.mk (s2.take stop)
              let expr := parseInterpolationExpression exprContent
              templatePartsLoop fuel (s2.drop (stop + 1))
                (acc2 ++ [(false, exprContent, some expr)])

/-- `Parser.parseTemplateStringParts`. -/
def parseTemplateStringParts (template : String) :
    List TemplatePart × Option String :=
  templatePartsLoop (template.toList.length + 1) template.toList []

/-- `Parser.parseReference`: `:name` or `:namespace.name`. -/
def parseReference (p : ParserState) : Option Expression × ParserState :=
  match expectPeek p .ident with
  | (false, p1) => (none, p1)
  | (true, p1) =>
      if p1.peekToken.type = .dot then
        let ns := p1.curToken.literal
        let p2 := pNextToken p1
        match expectPeek p2 .ident with
        | (false, p3) => (none, p3)
        | (true, p3) => (some (.reference ns p3.curToken.literal .vnil), p3)
      else (some (.reference "" p1.curToken.literal .vnil), p1)

/-- `Parser.skipCommentsInObject`. -/
def skipCommentsInObject (fuel : ℕ) (p : ParserState) : ParserState :=
  match fuel with
  | 0 => p
  | fuel + 1 =>
      if p.curToken.type = .comment then
        let p2 := pNextToken p
        if p2.curToken.type = .rbrace then p2
        else skipCommentsInObject fuel p2
      else p

/-- `Parser.skipTrailingComments`. -/
def skipTrailingComments (fuel : ℕ) (p : ParserState) : ParserState :=
  match fuel with
  | 0 => p
  | fuel + 1 =>
      if p.peekToken.type = .comment then skipTrailingComments fuel (pNextToken p)
      else p

/-- `Parser.handleObjectSeparators`: returns whether the pair loop
continues. -/
def handleObjectSeparators (p : ParserState) : Bool × ParserState :=
  match p.peekToken.type with
  | .comma =>
      let p1 := pNextToken p
      if p1.peekToken.type = .rbrace then (false, p1)
      else (true, pNextToken p1)
  | .rbrace => (false, p)
  | .ident => (true, pNextToken p)
  | .comment => (true, pNextToken p)
  | _ => (false, p)

/-- The value `Parser.parseStatement` returns, seen as the Go
`ast.Statement` interface it is converted to: a parsed statement, a
*typed* nil pointer of the dispatched statement type (the sub-parse
failed and returned nil, which the interface conversion wraps as a
non-nil interface holding a nil pointer — so a later type assertion to
that pointer type succeeds and yields nil), or the untyped nil
interface returned directly by the unexpected-token branch. -/
inductive StmtParse where
  | stmt (s : Statement)
  | nilDirective
  | nilTable
  | nilAssignment
  | nilInterface

mutual

/-- `Parser.parseStatement`: dispatch on the leading token (`@`
directive, `#` table, identifier assignment, otherwise the
`unexpected token` error).  A failed sub-parse surfaces as the typed
nil pointer of the dispatched branch. -/
def parseStatement (fuel : ℕ) (p : ParserState) :
    StmtParse × ParserState :=
  match fuel with
  | 0 => (.nilInterface, p)
  | fuel + 1 =>
      match p.curToken.type with
      | .atSign =>
          (match parseDirectiveStatement fuel p with
           | (some s, p1) => (.stmt s, p1)
           | (none, p1) => (.nilDirective, p1))
      | .hash =>
          (match parseTableStatement fuel p with
           | (some s, p1) => (.stmt s, p1)
           | (none, p1) => (.nilTable, p1))
      | .ident =>
          (match parseAssignmentStatement fuel p with
           | (some s, p1) => (.stmt s, p1)
           | (none, p1) => (.nilAssignment, p1))
      | t => (.nilInterface, addError p ("unexpected token: " ++ typeString t))

/-- `Parser.parseDirectiveStatement`. -/
def parseDirectiveStatement (fuel : ℕ) (p : ParserState) :
    Option Statement × ParserState :=
  match fuel with
  | 0 => (none, p)
  | fuel + 1 =>
      match expectPeek p .ident with
      | (false, p1) => (none, p1)
      | (true, p1) =>
          let name := p1.curToken.literal
          if name = "const" then parseConstDirective fuel p1
          else if name = "env" then
            (none,
             addError p1
               "@env directive cannot be used as a statement, only as an expression")
          else if name = "brace" then parseBraceDirective fuel p1
          else (none, addError p1 ("unknown directive: " ++ name))

/-- `Parser.parseConstDirective`: optional string namespace parameter,
then a mandatory object body. -/
def parseConstDirective (fuel : ℕ) (p : ParserState) :
    Option Statement × ParserState :=
  match fuel with
  | 0 => (none, p)
  | fuel + 1 =>
      let (parameters, pA, failed) :=
        if p.peekToken.type = .string then
          match parseExpression fuel (pNextToken p) with
          | (some param, p1) => ([param], p1, false)
          | (none, p1) =>
              ([], addError p1 "failed to parse @const namespace", true)
        else ([], p, false)
      if failed then (none, pA)
      else
        match expectPeek pA .lbrace with
        | (false, p2) => (none, p2)
        | (true, p2) =>
            match parseObjectLiteral fuel p2 with
            | (some pairs, p3) =>
                (some (.directive "const" parameters pairs), p3)
            | (none, p3) => (none, addError p3 "failed to parse @const body")

/-- `Parser.parseBraceDirective`: `@brace "version"`. -/
def parseBraceDirective (fuel : ℕ) (p : ParserState) :
    Option Statement × ParserState :=
  match fuel with
  | 0 => (none, p)
  | fuel + 1 =>
      match expectPeek p .string with
      | (false, p1) => (none, p1)
      | (true, p1) =>
          match parseExpression fuel p1 with
          | (some param, p2) => (some (.directive "brace" [param] []), p2)
          | (none, p2) => (none, addError p2 "failed to parse @brace version")

/-- `Parser.parseAssignmentStatement`: `identifier = expression`, with
an optional trailing semicolon; a failed value sub-parse leaves the Go
nil expression in the statement (errors were already recorded). -/
def parseAssignmentStatement (fuel : ℕ) (p : ParserState) :
    Option Statement × ParserState :=
  match fuel with
  | 0 => (none, p)
  | fuel + 1 =>
      let name := p.curToken.literal
      match expectPeek p .assign with
      | (false, p1) => (none, p1)
      | (true, p1) =>
          let (valueOpt, p2) := parseExpression fuel (pNextToken p1)
          let p3 := if p2.peekToken.type = .semicolon then pNextToken p2 else p2
          (some (.assignment name (valueOpt.getD .goNil)), p3)

/-- `Parser.parseTableStatement`: `#` dotted identifier path and a
mandatory object body. -/
def parseTableStatement (fuel : ℕ) (p : ParserState) :
    Option Statement × ParserState :=
  match fuel with
  | 0 => (none, p)
  | fuel + 1 =>
      match expectPeek p .ident with
      | (false, p1) => (none, p1)
      | (true, p1) =>
          match parseTablePathLoop fuel p1 [p1.curToken.literal] with
          | (none, p2) => (none, p2)
          | (some path, p2) =>
              match expectPeek p2 .lbrace with
              | (false, p3) => (none, p3)
              | (true, p3) =>
                  match parseObjectLiteral fuel p3 with
                  | (some pairs, p4) => (some (.table path pairs), p4)
                  | (none, p4) => (none, addError p4 "failed to parse table body")

/-- The dotted-path loop of `parseTableStatement`. -/
def parseTablePathLoop (fuel : ℕ) (p : ParserState) (path : List String) :
    Option (List String) × ParserState :=
  match fuel with
  | 0 => (some path, p)
  | fuel + 1 =>
      if p.peekToken.type = .dot then
        let p1 := pNextToken p
        match expectPeek p1 .ident with
        | (false, p2) => (none, p2)
        | (true, p2) => parseTablePathLoop fuel p2 (path ++ [p2.curToken.literal])
      else (some path, p)

/-- `Parser.parseExpression`: dispatch on the current token kind. -/
def parseExpression (fuel : ℕ) (p : ParserState) :
    Option Expression × ParserState :=
  match fuel with
  | 0 => (none, p)
  | fuel + 1 =>
      match p.curToken.type with
      | .ident => (some (.ident p.curToken.literal), p)
      | .string => (some (.stringLit p.curToken.literal), p)
      | .number =>
          (match parseNumberLiteralValue p.curToken.literal with
           | some value => (some (.numberLit value), p)
           | none =>
               if ¬ containsChar p.curToken.literal '.' then
                 (none,
                  addError p ("could not parse \"" ++ p.curToken.literal ++
                    "\" as integer"))
               else
                 (none,
                  addError p ("could not parse \"" ++ p.curToken.literal ++
                    "\" as float")))
      | .kwTrue => (some (.booleanLit true), p)
      | .kwFalse => (some (.booleanLit false), p)
      | .kwNull => (some .nullLit, p)
      | .lbrace =>
          (match parseObjectLiteral fuel p with
           | (some pairs, p1) => (some (.objectLit pairs), p1)
           | (none, p1) => (none, p1))
      | .lbracket =>
          (match parseExpressionList fuel p .rbracket with
           | (some elements, p1) => (some (.arrayLit elements), p1)
           | (none, p1) => (none, p1))
      | .colon => parseReference p
      | .atSign => parseDirectiveExpression fuel p
      | .comment => (none, addError p "unexpected comment in expression context")
      | .illegal =>
          (none, addError p ("illegal token: " ++ p.curToken.literal))
      | .templateString =>
          let (parts, errOpt) := parseTemplateStringParts p.curToken.literal
          let p1 := match errOpt with
            | some msg => addError p msg
            | none => p
          (some (.templateStringLit parts), p1)
      | t => (none, addError p ("no parse function for " ++ typeString t ++ " found"))

/-- `Parser.parseDirectiveExpression`: only `@env("VAR")` /
`@env("VAR", default)` are legal in expression position. -/
def parseDirectiveExpression (fuel : ℕ) (p : ParserState) :
    Option Expression × ParserState :=
  match fuel with
  | 0 => (none, p)
  | fuel + 1 =>
      match expectPeek p .ident with
      | (false, p1) => (none, p1)
      | (true, p1) =>
          if p1.curToken.literal = "env" then
            match expectPeek p1 .lparen with
            | (false, p2) => (none, p2)
            | (true, p2) =>
                match expectPeek p2 .string with
                | (false, p3) => (none, p3)
                | (true, p3) =>
                    let varName := p3.curToken.literal
                    let (defaultValue, p4) :=
                      if p3.peekToken.type = .comma then
                        parseExpression fuel (pNextToken (pNextToken p3))
                      else (none, p3)
                    match expectPeek p4 .rparen with
                    | (false, p5) => (none, p5)
                    | (true, p5) =>
                        (some (.envDirective varName defaultValue .vnil), p5)
          else
            (none,
             addError p1 ("unknown directive in expression context: " ++
               p1.curToken.literal))

/-- `Parser.parseObjectLiteral`: `{}` or pairs then `}` (the Go
object-assert else-branch is unreachable since a successful
`parseObjectLiteral` always yields an object literal). -/
def parseObjectLiteral (fuel : ℕ) (p : ParserState) :
    Option (List (Expression × Expression)) × ParserState :=
  match fuel with
  | 0 => (none, p)
  | fuel + 1 =>
      if p.peekToken.type = .rbrace then (some [], pNextToken p)
      else
        match parseObjectPairs fuel (pNextToken p) [] with
        | (none, p1) => (none, p1)
        | (some pairs, p1) =>
            match expectPeek p1 .rbrace with
            | (false, p2) => (none, p2)
            | (true, p2) => (some pairs, p2)

/-- `Parser.parseObjectPairs`: the pair loop with comment skipping and
separator handling.  `none` models the Go `false` return. -/
def parseObjectPairs (fuel : ℕ) (p : ParserState)
    (acc : List (Expression × Expression)) :
    Option (List (Expression × Expression)) × ParserState :=
  match fuel with
  | 0 => (some acc, p)
  | fuel + 1 =>
      let p1 := skipCommentsInObject (p.rest.length + 2) p
      if p1.curToken.type = .rbrace then (some acc, p1)
      else
        match parseObjectPair fuel p1 acc with
        | (none, p2) => (none, p2)
        | (some acc2, p2) =>
            let p3 := skipTrailingComments (p2.rest.length + 2) p2
            match handleObjectSeparators p3 with
            | (false, p4) => (some acc2, p4)
            | (true, p4) => parseObjectPairs fuel p4 acc2

/-- `Parser.parseObjectPair`: `key = value`; the pair is stored only
when both sides parse. -/
def parseObjectPair (fuel : ℕ) (p : ParserState)
    (acc : List (Expression × Expression)) :
    Option (List (Expression × Expression)) × ParserState :=
  match fuel with
  | 0 => (none, p)
  | fuel + 1 =>
      match parseExpression fuel p with
      | (none, p1) => (none, addError p1 "failed to parse object key")
      | (some key, p1) =>
          match expectPeek p1 .assign with
          | (false, p2) => (none, p2)
          | (true, p2) =>
              match parseExpression fuel (pNextToken p2) with
              | (none, p3) => (none, addError p3 "failed to parse object value")
              | (some value, p3) => (some (acc ++ [(key, value)]), p3)

/-- `Parser.parseExpressionList` (array elements): a failed element
sub-parse appends the Go nil expression and continues. -/
def parseExpressionList (fuel : ℕ) (p : ParserState) (endTok : TokenType) :
    Option (List Expression) × ParserState :=
  match fuel with
  | 0 => (none, p)
  | fuel + 1 =>
      if p.peekToken.type = endTok then (some [], pNextToken p)
      else
        let (firstOpt, p1) := parseExpression fuel (pNextToken p)
        let (args, p2) := parseExpressionListLoop fuel p1 [firstOpt.getD .goNil]
        match expectPeek p2 endTok with
        | (false, p3) => (none, p3)
        | (true, p3) => (some args, p3)

/-- The comma loop of `parseExpressionList`. -/
def parseExpressionListLoop (fuel : ℕ) (p : ParserState)
    (args : List Expression) : List Expression × ParserState :=
  match fuel with
  | 0 => (args, p)
  | fuel + 1 =>
      if p.peekToken.type = .comma then
        let (nextOpt, p1) := parseExpression fuel (pNextToken (pNextToken p))
        parseExpressionListLoop fuel p1 (args ++ [nextOpt.getD .goNil])
      else (args, p)

end

/-- The leading-comment skip at the top of `Parser.ParseProgram`. -/
def skipLeadingCommentsAux (fuel : ℕ) (p : ParserState) : ParserState :=
  match fuel with
  | 0 => p
  | fuel + 1 =>
      if p.curToken.type = .comment then skipLeadingCommentsAux fuel (pNextToken p)
      else p

/-- Skips leading comment tokens (with fuel ample for the stream: each
step consumes the current token, and once the stream is exhausted the
lexer yields only `EOF`, which is not a comment). -/
def skipLeadingComments (p : ParserState) : ParserState :=
  skipLeadingCommentsAux (p.rest.length + 2) p

/-- The main statement loop of `Parser.ParseProgram`: skip comments,
parse statements, advance.  Go's `if stmt != nil` check skips only the
untyped nil of the unexpected-token branch and appends typed-nil
pointers from failed sub-parses to the slice; those nil entries are
dropped here, which is observable only behind the parse-error gate
(every failed sub-parse records an error, and the compiler discards
the statement list whenever the error list is non-empty). -/
def parseProgramLoop (fuel : ℕ) (p : ParserState) (acc : List Statement) :
    List Statement × ParserState :=
  match fuel with
  | 0 => (acc, p)
  | fuel + 1 =>
      if p.curToken.type = .eof then (acc, p)
      else if p.curToken.type = .comment then parseProgramLoop fuel (pNextToken p) acc
      else
        let (stmtParse, p1) := parseStatement fuel p
        let acc2 :=
          match stmtParse with
          | .stmt s => acc ++ [s]
          | _ => acc
        parseProgramLoop fuel (pNextToken p1) acc2

/-- Fuel ample for every descent the parser can make on a token list. -/
def parseFuel (toks : List Token) : ℕ := toks.length * 16 + 64

/-- What a `ParseProgram` run produces: the statement list with the
collected error messages, or a runtime panic that crashes the whole
process. -/
inductive ParseOutcome where
  | ok (program : Program) (errors : List String)
  | panicked (msg : String)

/-- The Go runtime's message for dereferencing a nil pointer. -/
def nilDerefPanicMsg : String :=
  "runtime error: invalid memory address or nil pointer dereference"

/-- `Parser.ParseProgram`: leading comments are skipped; the empty file
and a non-`@` start abort with their distinguished error.  The first
statement is then parsed and type-asserted to `*ast.DirectiveStatement`:
when the leading `@`-statement's sub-parse failed, `parseStatement`
returned a *typed nil* directive pointer, the assertion succeeds with a
nil `directive`, and reading `directive.Name` crashes with a
nil-pointer dereference panic — so an `@brace` with an absent or
non-string version parameter (or any other failing `@`-statement)
panics rather than reporting its collected errors, and the
`first statement must be @brace directive` branch is dead code for
`@`-led files.  A successfully parsed first directive is checked to be
`@brace` with exactly one string-literal parameter, after which the
remaining statements are parsed in a loop. -/
def parseProgram (toks : List Token) : ParseOutcome :=
  let p0 := parserInit toks
  let p1 := skipLeadingComments p0
  if p1.curToken.type = .eof then
    .ok [] (addError p1 "empty BRACE file - must start with @brace directive").errors
  else if p1.curToken.type ≠ .atSign then
    .ok [] (addError p1 "BRACE file must start with @brace directive").errors
  else
    match parseStatement (parseFuel toks) p1 with
    | (.stmt firstStmt, p2) =>
        (match firstStmt with
         | .directive name parameters _ =>
             if name ≠ "brace" then
               .ok [] (addError p2 ("first directive must be @brace, got @" ++ name)).errors
             else
               (match parameters with
                | [param] =>
                    (match param with
                     | .stringLit _ =>
                         let (stmts, pF) :=
                           parseProgramLoop (parseFuel toks) (pNextToken p2) [firstStmt]
                         .ok stmts pF.errors
                     | _ =>
                         .ok [] (addError p2 "@brace version must be a string literal").errors)
                | _ =>
                    .ok []
                      (addError p2
                        "@brace directive requires exactly one version parameter").errors)
         | _ =>
             .ok [] (addError p2 "first statement must be @brace directive").errors)
    | (.nilDirective, _) => .panicked nilDerefPanicMsg
    | (_, p2) =>
        .ok [] (addError p2 "first statement must be @brace directive").errors

/-- The statements of a non-panicking parse. -/
def parsedStatements : ParseOutcome → Program
  | .ok program _ => program
  | .panicked _ => []

/-- The collected error messages of a non-panicking parse. -/
def parsedErrors : ParseOutcome → List String
  | .ok _ errors => errors
  | .panicked _ => []

/-! ### The Compiler pipeline (`internal/compiler/compiler.go`) -/

/-- The outcome of `Compiler.compileWithFilename`, starting from the
parser phase: each failure constructor records the phase that aborted
compilation (a `panicked` table-walk crashes the process rather than
returning an error). -/
inductive CompileResult where
  | parseFailure (errs : List String)
  | analysisFailure (errs : List String)
  | generationFailure (msg : String)
  | panicked (msg : String)
  | success (output : Output)

/-- `Compiler.compileWithFilename` from the token stream on: a panic
inside `ParseProgram` crashes compilation; otherwise parse errors abort
before `Analyzer.Analyze` runs, analysis errors abort before
`Transform.Transform` runs, and the emitter then produces the output
tree handed to the (external) serializer. -/
def compileTokens (env : Env) (toks : List Token) : CompileResult :=
  match parseProgram toks with
  | .panicked msg => .panicked msg
  | .ok program parseErrs =>
      if parseErrs ≠ [] then .parseFailure parseErrs
      else
        let (program2, analysisErrs) := analyze env program
        if analysisErrs ≠ [] then .analysisFailure analysisErrs
        else
          match transformProgram program2 [] with
          | .ok output => .success output
          | .error (.goError msg) => .generationFailure msg
          | .error (.panicked msg) => .panicked msg

/-! ### Observation functions used by the theorem statements -/

mutual

/-- The `(namespace, name)` pairs of the `Reference` nodes the
analyzer's reference-resolution pass visits inside an expression
(mirroring the traversal of `resolveReferences`: object values and
array elements; object keys, template parts and `@env` defaults are not
visited by that pass). -/
def collectRefs : Expression → List (String × String)
  | .reference ns name _ => [(ns, name)]
  | .objectLit pairs => collectRefsPairs pairs
  | .arrayLit elements => collectRefsList elements
  | _ => []

/-- `collectRefs` over the value side of object-literal pairs. -/
def collectRefsPairs : List (Expression × Expression) → List (String × String)
  | [] => []
  | (_, value) :: rest => collectRefs value ++ collectRefsPairs rest

/-- `collectRefs` over array elements. -/
def collectRefsList : List Expression → List (String × String)
  | [] => []
  | e :: rest => collectRefs e ++ collectRefsList rest

end

/-- An environment with every variable unset. -/
def emptyEnv : Env := fun _ => ""

/-- An environment fixture exercising each coercion class. -/
def envFixture : Env := fun name =>
  if name = "BOOL_VAR" then "true"
  else if name = "INT_VAR" then "42"
  else if name = "FLOAT_VAR" then "3.14"
  else if name = "RAW_VAR" then "hello"
  else ""

def tokAt : Token := ⟨.atSign, "@"⟩
def tokHash : Token := ⟨.hash, "#"⟩
def tokAssign : Token := ⟨.assign, "="⟩
def tokColon : Token := ⟨.colon, ":"⟩
def tokDot : Token := ⟨.dot, "."⟩
def tokLBrace : Token := ⟨.lbrace, "\x7b"⟩
def tokRBrace : Token := ⟨.rbrace, "\x7d"⟩
def tokSemicolon : Token := ⟨.semicolon, ";"⟩
def tokNull : Token := ⟨.kwNull, "null"⟩
def tokIdent (s : String) : Token := ⟨.ident, s⟩
def tokString (s : String) : Token := ⟨.string, s⟩
def tokNumber (s : String) : Token := ⟨.number, s⟩

/-- `@brace "0.0.1"` -/
def braceHeader : List Token := [tokAt, tokIdent "brace", tokString "0.0.1"]

/-- `@const { NAME = "test" }` as the first statement. -/
def c2WrongDirectiveDoc : List Token :=
  [tokAt, tokIdent "const", tokLBrace, tokIdent "NAME", tokAssign,
   tokString "test", tokRBrace]

/-- `@brace` with no version parameter (next statement follows). -/
def c2NoParamDoc : List Token :=
  [tokAt, tokIdent "brace", tokIdent "name", tokAssign, tokString "test"]

/-- `@brace 1.0` — a non-string version parameter. -/
def c2NonStringDoc : List Token := [tokAt, tokIdent "brace", tokNumber "1.0"]

/-- `@brace "zzz-not-a-version"; x = 1` — an arbitrary version string
no implementation allow-list vets. -/
def c2AnyVersionDoc : List Token :=
  [tokAt, tokIdent "brace", tokString "zzz-not-a-version",
   tokIdent "x", tokAssign, tokNumber "1"]

/-- `@brace "0.0.1"; @const { X = null }; x = :X` — a constant whose
value is `null`, then a reference to it. -/
def c5Doc : List Token :=
  braceHeader ++
  [tokAt, tokIdent "const", tokLBrace, tokIdent "X", tokAssign, tokNull,
   tokRBrace,
   tokIdent "x", tokAssign, tokColon, tokIdent "X"]

/-- `@brace "0.0.1"; #a.b { x = 1 }; #a.c { y = 2 }`. -/
def c6Doc : List Token :=
  braceHeader ++
  [tokHash, tokIdent "a", tokDot, tokIdent "b", tokLBrace,
   tokIdent "x", tokAssign, tokNumber "1", tokRBrace,
   tokHash, tokIdent "a", tokDot, tokIdent "c", tokLBrace,
   tokIdent "y", tokAssign, tokNumber "2", tokRBrace]

/-- `@brace "0.0.1"; #a { x = 1 }; #a { y = 2 }` — the same leaf path
declared twice. -/
def c6OverwriteDoc : List Token :=
  braceHeader ++
  [tokHash, tokIdent "a", tokLBrace, tokIdent "x", tokAssign, tokNumber "1",
   tokRBrace,
   tokHash, tokIdent "a", tokLBrace, tokIdent "y", tokAssign, tokNumber "2",
   tokRBrace]

/-- `@brace "0.0.1"; x = :A; y = :B` — two undefined references. -/
def c7RefsDoc : List Token :=
  braceHeader ++
  [tokIdent "x", tokAssign, tokColon, tokIdent "A",
   tokIdent "y", tokAssign, tokColon, tokIdent "B"]

/-- `@brace "0.0.1"; ; ;` — two statements that each fail to parse. -/
def c7ParseDoc : List Token := braceHeader ++ [tokSemicolon, tokSemicolon]

/-- `@brace "0.0.1"; b = 1; a = 2; n = null` — root keys contributed in
the order `b`, `a`, `n`. -/
def c9Doc : List Token :=
  braceHeader ++
  [tokIdent "b", tokAssign, tokNumber "1",
   tokIdent "a", tokAssign, tokNumber "2",
   tokIdent "n", tokAssign, tokNull]

/-- The output tree `c9Doc` emits. -/
def c9Output : Output := [("b", .vint 1), ("a", .vint 2), ("n", .vnil)]

/-- `@brace "0.0.1"; x = 1; #x.y { z = 2 }` — a non-mapping value at an
intermediate table-path segment. -/
def c10Doc : List Token :=
  braceHeader ++
  [tokIdent "x", tokAssign, tokNumber "1",
   tokHash, tokIdent "x", tokDot, tokIdent "y", tokLBrace,
   tokIdent "z", tokAssign, tokNumber "2", tokRBrace]

/-- `@brace "0.0.1"; x = null; #x.y { z = 2 }` — a `null` (also not a
mapping) at an intermediate table-path segment. -/
def c10NullDoc : List Token :=
  braceHeader ++
  [tokIdent "x", tokAssign, tokNull,
   tokHash, tokIdent "x", tokDot, tokIdent "y", tokLBrace,
   tokIdent "z", tokAssign, tokNumber "2", tokRBrace]

/-! ### Helper lemmas -/

mutual

/-- If the resolution pass visits a reference whose (defaulted)
namespace/name pair is absent from the constant table, the
`undefined reference` error naming it is among the errors the walk
appends. -/
theorem collectRefs_undef_mem (env : Env) (consts : Constants) (ns name : String)
    (e : Expression) (hmem : (ns, name) ∈ collectRefs e)
    (hlook : constTableLookup consts (defaultNs ns) name = none) :
    ("undefined reference: " ++ defaultNs ns ++ "." ++ name) ∈
      (resolveRefExpr env consts e).2 := by
  match e with
  | .reference ns2 name2 rv =>
      simp only [collectRefs, List.mem_singleton, Prod.mk.injEq] at hmem
      obtain ⟨h1, h2⟩ := hmem
      subst h1; subst h2
      simp [resolveRefExpr, hlook]
  | .objectLit pairs =>
      simp only [collectRefs] at hmem
      exact collectRefsPairs_undef_mem env consts ns name pairs hmem hlook
  | .arrayLit elements =>
      simp only [collectRefs] at hmem
      exact collectRefsList_undef_mem env consts ns name elements hmem hlook
  | .ident v => simp [collectRefs] at hmem
  | .stringLit v => simp [collectRefs] at hmem
  | .numberLit v => simp [collectRefs] at hmem
  | .booleanLit v => simp [collectRefs] at hmem
  | .nullLit => simp [collectRefs] at hmem
  | .envDirective a b c => simp [collectRefs] at hmem
  | .templateStringLit parts => simp [collectRefs] at hmem
  | .goNil => simp [collectRefs] at hmem

/-- `collectRefs_undef_mem` over object-literal pairs. -/
theorem collectRefsPairs_undef_mem (env : Env) (consts : Constants)
    (ns name : String) (l : List (Expression × Expression))
    (hmem : (ns, name) ∈ collectRefsPairs l)
    (hlook : constTableLookup consts (defaultNs ns) name = none) :
    ("undefined reference: " ++ defaultNs ns ++ "." ++ name) ∈
      (resolveRefPairs env consts l).2 := by
  match l with
  | [] => simp [collectRefsPairs] at hmem
  | (key, value) :: rest =>
      simp only [collectRefsPairs, List.mem_append] at hmem
      have hsplit :
          (resolveRefPairs env consts ((key, value) :: rest)).2 =
            (resolveRefExpr env consts value).2 ++
              (resolveRefPairs env consts rest).2 := rfl
      rw [hsplit]
      rcases hmem with hmem | hmem
      · exact List.mem_append_left _
          (collectRefs_undef_mem env consts ns name value hmem hlook)
      · exact List.mem_append_right _
          (collectRefsPairs_undef_mem env consts ns name rest hmem hlook)

/-- `collectRefs_undef_mem` over array elements. -/
theorem collectRefsList_undef_mem (env : Env) (consts : Constants)
    (ns name : String) (l : List Expression)
    (hmem : (ns, name) ∈ collectRefsList l)
    (hlook : constTableLookup consts (defaultNs ns) name = none) :
    ("undefined reference: " ++ defaultNs ns ++ "." ++ name) ∈
      (resolveRefList env consts l).2 := by
  match l with
  | [] => simp [collectRefsList] at hmem
  | e :: rest =>
      simp only [collectRefsList, List.mem_append] at hmem
      have hsplit :
          (resolveRefList env consts (e :: rest)).2 =
            (resolveRefExpr env consts e).2 ++
              (resolveRefList env consts rest).2 := rfl
      rw [hsplit]
      rcases hmem with hmem | hmem
      · exact List.mem_append_left _
          (collectRefs_undef_mem env consts ns name e hmem hlook)
      · exact List.mem_append_right _
          (collectRefsList_undef_mem env consts ns name rest hmem hlook)

end

/-- Skipping leading comments records no errors. -/
theorem skipLeadingCommentsAux_errors (fuel : ℕ) (p : ParserState) :
    (skipLeadingCommentsAux fuel p).errors = p.errors := by
  induction fuel generalizing p with
  | zero => rfl
  | succ fuel ih =>
      simp only [skipLeadingCommentsAux]
      split
      · rw [ih]; rfl
      · rfl

/-- The parser state after the leading-comment skip still has an empty
error list. -/
theorem skipLeadingComments_errors (toks : List Token) :
    (skipLeadingComments (parserInit toks)).errors = [] := by
  simp [skipLeadingComments, skipLeadingCommentsAux_errors, parserInit]

/-- A document with no non-comment token: `ParseProgram` returns no
statements and exactly the distinguished empty-file error. -/
theorem parseProgram_empty_file (toks : List Token)
    (h : (skipLeadingComments (parserInit toks)).curToken.type = .eof) :
    parseProgram toks =
      .ok [] ["empty BRACE file - must start with @brace directive"] := by
  simp only [parseProgram, h, reduceIte, addError]
  rw [skipLeadingComments_errors]
  rfl

/-- A document whose first non-comment token is not `@`: `ParseProgram`
returns no statements and exactly the distinguished
must-start-with-`@brace` error. -/
theorem parseProgram_not_at (toks : List Token)
    (h1 : (skipLeadingComments (parserInit toks)).curToken.type ≠ .eof)
    (h2 : (skipLeadingComments (parserInit toks)).curToken.type ≠ .atSign) :
    parseProgram toks =
      .ok [] ["BRACE file must start with @brace directive"] := by
  simp only [parseProgram]
  rw [if_neg h1, if_pos h2]
  simp [addError, skipLeadingComments_errors]

/-- Non-empty parser errors make the pipeline return the parse failure:
`Analyzer.Analyze` is never invoked (a panicking parse has no error
list, so the hypothesis restricts to non-panicking runs). -/
theorem compileTokens_parse_gate (env : Env) (toks : List Token)
    (h : parsedErrors (parseProgram toks) ≠ []) :
    compileTokens env toks = .parseFailure (parsedErrors (parseProgram toks)) := by
  match hpo : parseProgram toks with
  | .panicked msg => rw [hpo] at h; exact absurd rfl h
  | .ok program errs =>
      rw [hpo] at h
      have h' : errs ≠ [] := h
      simp only [compileTokens, hpo]
      rw [if_pos h']
      rfl

/-- With a clean parse, non-empty analyzer errors make the pipeline
return the analysis failure: `Transform.Transform` is never invoked. -/
theorem compileTokens_analysis_gate (env : Env) (toks : List Token)
    (h1 : parsedErrors (parseProgram toks) = [])
    (h2 : analysisErrors env (parsedStatements (parseProgram toks)) ≠ []) :
    compileTokens env toks =
      .analysisFailure (analysisErrors env (parsedStatements (parseProgram toks))) := by
  match hpo : parseProgram toks with
  | .panicked msg =>
      rw [hpo] at h2
      exact absurd rfl h2
  | .ok program errs =>
      rw [hpo] at h1 h2
      have h1' : ¬ errs ≠ [] := by simp [show errs = [] from h1]
      have h2' : (analyze env program).2 ≠ [] := h2
      simp only [compileTokens, hpo]
      rw [if_neg h1', if_pos h2']
      rfl

/-- Inserting into a `goStringLe`-sorted list yields a permutation of
consing. -/
theorem insertSorted_perm (s : String) (l : List String) :
    (insertSorted s l).Perm (s :: l) := by
  induction l with
  | nil => exact List.Perm.refl _
  | cons t rest ih =>
      simp only [insertSorted]
      split
      · exact List.Perm.refl _
      · exact (List.Perm.cons t ih).trans (List.Perm.swap s t rest)

/-- The JSON key sort is a permutation: serialization drops no keys and
invents none. -/
theorem sortStrings_perm (l : List String) : (sortStrings l).Perm l := by
  induction l with
  | nil => exact List.Perm.refl _
  | cons s rest ih =>
      exact (insertSorted_perm s (sortStrings rest)).trans (ih.cons s)

/-- `goStringLe` is total. -/
theorem goStringLe_total (a b : String) :
    goStringLe a b = true ∨ goStringLe b a = true := by
  unfold goStringLe
  generalize a.toList = as
  generalize b.toList = bs
  induction as generalizing bs with
  | nil => left; rfl
  | cons c cr ih =>
      cases bs with
      | nil => right; rfl
      | cons d dr =>
          by_cases hcd : c = d
          · subst hcd
            simpa [goStringLe.go] using ih dr
          · rcases lt_or_gt_of_ne hcd with hlt | hgt
            · left; simp [goStringLe.go, hcd, hlt]
            · right
              have hdc : ¬ d = c := fun h => hcd h.symm
              simp [goStringLe.go, hdc, hgt, not_lt_of_gt hgt]

/-- The character-list comparison underlying `goStringLe` is
transitive. -/
theorem goStringLe_go_trans :
    ∀ as bs cs : List Char, goStringLe.go as bs = true →
      goStringLe.go bs cs = true → goStringLe.go as cs = true := by
  intro as
  induction as with
  | nil => intro bs cs h1 h2; rfl
  | cons x xr ih =>
      intro bs cs h1 h2
      cases bs with
      | nil => simp [goStringLe.go] at h1
      | cons y yr =>
          cases cs with
          | nil => simp [goStringLe.go] at h2
          | cons z zr =>
              by_cases hxy : x = y
              · subst hxy
                simp only [goStringLe.go, if_pos rfl] at h1
                by_cases hyz : x = z
                · subst hyz
                  simp only [goStringLe.go, if_pos rfl] at h2 ⊢
                  exact ih yr zr h1 h2
                · simp only [goStringLe.go, if_neg hyz] at h2 ⊢
                  exact h2
              · simp only [goStringLe.go, if_neg hxy, decide_eq_true_eq] at h1
                by_cases hyz : y = z
                · subst hyz
                  simp [goStringLe.go, if_neg hxy, decide_eq_true_eq, h1]
                · simp only [goStringLe.go, if_neg hyz, decide_eq_true_eq] at h2
                  have hxz : x < z := lt_trans h1 h2
                  have hxz' : x ≠ z := ne_of_lt hxz
                  simp [goStringLe.go, if_neg hxz', decide_eq_true_eq, hxz]

/-- `goStringLe` is transitive. -/
theorem goStringLe_trans (a b c : String) (h1 : goStringLe a b = true)
    (h2 : goStringLe b c = true) : goStringLe a c = true :=
  goStringLe_go_trans a.toList b.toList c.toList h1 h2

/-- Inserting preserves `goStringLe`-sortedness. -/
theorem insertSorted_pairwise (s : String) (l : List String)
    (h : l.Pairwise (fun a b => goStringLe a b = true)) :
    (insertSorted s l).Pairwise (fun a b => goStringLe a b = true) := by
  induction l with
  | nil => simp [insertSorted]
  | cons t rest ih =>
      rcases List.pairwise_cons.mp h with ⟨ht, hrest⟩
      simp only [insertSorted]
      split
      · next hst =>
          refine List.pairwise_cons.mpr ⟨?_, h⟩
          intro u hu
          rcases List.mem_cons.mp hu with hu | hu
          · subst hu; exact hst
          · exact goStringLe_trans s t u hst (ht u hu)
      · next hst =>
          refine List.pairwise_cons.mpr ⟨?_, ih hrest⟩
          intro u hu
          have hu2 : u ∈ s :: rest := (insertSorted_perm s rest).mem_iff.mp hu
          rcases List.mem_cons.mp hu2 with hu2 | hu2
          · rw [hu2]
            rcases goStringLe_total s t with hst2 | hts
            · exact absurd hst2 hst
            · exact hts
          · exact ht u hu2

/-- A table walk reaching an intermediate segment that already holds a
mapping descends into it: the existing mapping is merged into, not
overwritten. -/
theorem processTablePath_cons_existing_map
    (body : List (Expression × Expression)) (out : Output)
    (seg r : String) (rs : List String) (m : Output)
    (h : alistLookup out seg = some (.vmap m)) :
    processTablePath body (seg :: r :: rs) out =
      match processTablePath body (r :: rs) m with
      | .ok child2 => .ok (alistSet out seg (.vmap child2))
      | .error err => .error err := by
  simp only [processTablePath, h]

/-- A table walk reaching an absent intermediate segment creates the
nested mapping lazily. -/
theorem processTablePath_cons_absent
    (body : List (Expression × Expression)) (out : Output)
    (seg r : String) (rs : List String)
    (h : alistLookup out seg = none) :
    processTablePath body (seg :: r :: rs) out =
      match processTablePath body (r :: rs) [] with
      | .ok child2 => .ok (alistSet out seg (.vmap child2))
      | .error err => .error err := by
  simp only [processTablePath, h]

/-- A table walk reaching an intermediate segment that holds a non-nil,
non-mapping value panics on the unchecked map type assertion. -/
theorem processTablePath_cons_panic
    (body : List (Expression × Expression)) (out : Output)
    (seg r : String) (rs : List String) (v : GoValue)
    (h : alistLookup out seg = some v) (h1 : v ≠ .vnil)
    (h2 : ∀ m, v ≠ .vmap m) :
    processTablePath body (seg :: r :: rs) out =
      .error (.panicked (mapAssertPanicMsg v)) := by
  match v with
  | .vnil => exact absurd rfl h1
  | .vmap m => exact absurd rfl (h2 m)
  | .vstr s => simp only [processTablePath, h]
  | .vint i => simp only [processTablePath, h]
  | .vfloat f => simp only [processTablePath, h]
  | .vbool b => simp only [processTablePath, h]
  | .varr l => simp only [processTablePath, h]

/-- The JSON key sequence is sorted in Go's byte-wise string order. -/
theorem sortStrings_pairwise (l : List String) :
    (sortStrings l).Pairwise (fun a b => goStringLe a b = true) := by
  induction l with
  | nil => simp [sortStrings]
  | cons s rest ih => exact insertSorted_pairwise s _ ih

/-! ### The claims -/

set_option maxRecDepth 8192
set_option exponentiation.threshold 1200

/-- Claim C2, counterexample: the claim's requirement that the version
parameter "must name a version string understood by the implementation"
is false on the code — no allow-list exists, and
`@brace "zzz-not-a-version"; x = 1` compiles successfully. -/
theorem c2_counterexample :
    compileTokens emptyEnv c2AnyVersionDoc = .success [("x", .vint 1)] := rfl

/-- Claim C2 (amended): a document whose first non-comment statement is
not an `@brace` directive with exactly one string-literal parameter
fails before semantic analysis, but not uniformly with a collected
error: an empty document, a non-`@` start, or a different leading
directive yields a version-directive parse error; an `@brace` whose
version parameter is absent or not a string literal makes the first
statement parse to a typed-nil `*DirectiveStatement`, so `ParseProgram`
dereferences `directive.Name` on a nil pointer and the compiler panics
with the nil-pointer runtime error instead of reporting the collected
parse errors. The version string itself, when present, may be any
string — the implementation enforces no supported-version list. -/
theorem c2_version_directive_amended :
    (∀ toks : List Token,
        (skipLeadingComments (parserInit toks)).curToken.type = .eof →
        parseProgram toks =
          .ok [] ["empty BRACE file - must start with @brace directive"]) ∧
    (∀ toks : List Token,
        (skipLeadingComments (parserInit toks)).curToken.type ≠ .eof →
        (skipLeadingComments (parserInit toks)).curToken.type ≠ .atSign →
        parseProgram toks =
          .ok [] ["BRACE file must start with @brace directive"]) ∧
    (∀ (env : Env) (toks : List Token),
        parsedErrors (parseProgram toks) ≠ [] →
        compileTokens env toks =
          .parseFailure (parsedErrors (parseProgram toks))) ∧
    (∀ (env : Env) (toks : List Token) (msg : String),
        parseProgram toks = .panicked msg →
        compileTokens env toks = .panicked msg) ∧
    parseProgram c2WrongDirectiveDoc =
      .ok [] ["first directive must be @brace, got @const"] ∧
    parseProgram c2NoParamDoc = .panicked nilDerefPanicMsg ∧
    parseProgram c2NonStringDoc = .panicked nilDerefPanicMsg ∧
    compileTokens emptyEnv c2NoParamDoc = .panicked nilDerefPanicMsg ∧
    compileTokens emptyEnv c2AnyVersionDoc = .success [("x", .vint 1)] := by
  refine ⟨parseProgram_empty_file, parseProgram_not_at,
    compileTokens_parse_gate, ?_, rfl, rfl, rfl, rfl, rfl⟩
  intro env toks msg hpo
  simp only [compileTokens, hpo]

/-- Witness for C2: the empty-document conjunct applied to the empty
token stream, the parse gate applied to it, and the panic-propagation
conjunct applied to the absent-version document. -/
theorem c2_version_directive_amended_witness :
    parseProgram ([] : List Token) =
      .ok [] ["empty BRACE file - must start with @brace directive"] ∧
    compileTokens emptyEnv ([] : List Token) =
      .parseFailure (parsedErrors (parseProgram ([] : List Token))) ∧
    compileTokens emptyEnv c2NonStringDoc = .panicked nilDerefPanicMsg := by
  have h1 := c2_version_directive_amended.1 [] rfl
  refine ⟨h1, c2_version_directive_amended.2.2.1 emptyEnv [] ?_,
    c2_version_directive_amended.2.2.2.1 emptyEnv c2NonStringDoc
      nilDerefPanicMsg rfl⟩
  rw [h1]
  exact List.cons_ne_nil _ _

/-- Claim C3: `@env("X")` with `X` absent or empty and no default is a
hard error naming the variable; with a default, the default expression
is evaluated instead; a non-empty environment value always wins,
whatever default was supplied. -/
theorem c3_env_resolution :
    (∀ (env : Env) (consts : Constants) (varName : String),
        env varName = "" →
        evaluateEnvDirectiveExpression env consts varName none =
          .error ("environment variable " ++ varName ++
            " not set and no default provided")) ∧
    (∀ (env : Env) (consts : Constants) (varName : String) (d : Expression),
        env varName = "" →
        evaluateEnvDirectiveExpression env consts varName (some d) =
          aEvaluateExpression env consts d) ∧
    (∀ (env : Env) (consts : Constants) (varName : String)
        (dflt : Option Expression),
        env varName ≠ "" →
        evaluateEnvDirectiveExpression env consts varName dflt =
          .ok (envCoerce (env varName))) := by
  refine ⟨?_, ?_, ?_⟩
  · intro env consts varName h
    simp [evaluateEnvDirectiveExpression, aEvaluateExpression, h]
  · intro env consts varName d h
    simp [evaluateEnvDirectiveExpression, aEvaluateExpression, h]
  · intro env consts varName dflt h
    have hstep : evaluateEnvDirectiveExpression env consts varName dflt =
        if env varName = "" then
          (match dflt with
           | some d => aEvaluateExpression env consts d
           | none =>
               .error ("environment variable " ++ varName ++
                 " not set and no default provided"))
        else .ok (envCoerce (env varName)) :=
      (aEvaluateExpression.eq_def env consts
        (.envDirective varName dflt .vnil)).trans rfl
    rw [hstep, if_neg h]

/-- Witness for C3: each conjunct at a concrete environment — in the
last case the variable is set and the supplied default is ignored. -/
theorem c3_env_resolution_witness :
    evaluateEnvDirectiveExpression emptyEnv [] "MISSING" none =
      .error "environment variable MISSING not set and no default provided" ∧
    evaluateEnvDirectiveExpression emptyEnv [] "MISSING"
      (some (.stringLit "fallback")) = .ok (.vstr "fallback") ∧
    evaluateEnvDirectiveExpression envFixture [] "INT_VAR"
      (some (.stringLit "fallback")) = .ok (.vint 42) := by
  refine ⟨c3_env_resolution.1 emptyEnv [] "MISSING" rfl, ?_, ?_⟩
  · rw [c3_env_resolution.2.1 emptyEnv [] "MISSING" (.stringLit "fallback") rfl]
    exact rfl
  · rw [c3_env_resolution.2.2 envFixture [] "INT_VAR"
      (some (.stringLit "fallback")) (by decide)]
    exact rfl

/-- Claim C5 (a bug in the code): in
`@brace "0.0.1"; @const { X = null }; x = :X` analysis succeeds with no
errors — the constant table holds `X = null` and the reference's
resolved-value slot is populated with the nil interface — yet emission
takes the defensive `unresolved reference` branch the claim says is
unreachable after successful analysis, because the nil interface that
means "slot not populated" is the same value as a resolved `null`. -/
theorem c5_null_constant_emission_bug :
    analysisErrors emptyEnv (parsedStatements (parseProgram c5Doc)) = [] ∧
    constTableLookup
      (fullConstTable emptyEnv (parsedStatements (parseProgram c5Doc)))
      "global" "X" = some .vnil ∧
    compileTokens emptyEnv c5Doc =
      .generationFailure "unresolved reference: X" := ⟨rfl, rfl, rfl⟩

/-- Claim C6: `#a.b { x = 1 }` with `#a.c { y = 2 }` emits `a` holding
the sibling mappings `b` and `c`; an intermediate segment already
holding a mapping is descended into (merged), an absent intermediate
segment is created lazily, and re-declaring the same leaf path
overwrites the previous leaf value. -/
theorem c6_table_merging :
    compileTokens emptyEnv c6Doc =
      .success [("a", .vmap [("b", .vmap [("x", .vint 1)]),
                            ("c", .vmap [("y", .vint 2)])])] ∧
    (∀ (body : List (Expression × Expression)) (out : Output) (seg r : String)
        (rs : List String) (m : Output),
        alistLookup out seg = some (.vmap m) →
        processTablePath body (seg :: r :: rs) out =
          match processTablePath body (r :: rs) m with
          | .ok child2 => .ok (alistSet out seg (.vmap child2))
          | .error err => .error err) ∧
    (∀ (body : List (Expression × Expression)) (out : Output) (seg r : String)
        (rs : List String),
        alistLookup out seg = none →
        processTablePath body (seg :: r :: rs) out =
          match processTablePath body (r :: rs) [] with
          | .ok child2 => .ok (alistSet out seg (.vmap child2))
          | .error err => .error err) ∧
    compileTokens emptyEnv c6OverwriteDoc =
      .success [("a", .vmap [("y", .vint 2)])] :=
  ⟨rfl, processTablePath_cons_existing_map, processTablePath_cons_absent, rfl⟩

/-- Witness for C6: the merge conjunct applied to an output tree where
`a` already maps `b`; installing `#a.c` preserves `b`. -/
theorem c6_table_merging_witness :
    processTablePath [(.ident "y", .numberLit (.int 2))] ["a", "c"]
        [("a", .vmap [("b", .vmap [("x", .vint 1)])])] =
      .ok [("a", .vmap [("b", .vmap [("x", .vint 1)]),
                        ("c", .vmap [("y", .vint 2)])])] := by
  rw [c6_table_merging.2.1 [(.ident "y", .numberLit (.int 2))]
    [("a", .vmap [("b", .vmap [("x", .vint 1)])])] "a" "c" []
    [("b", .vmap [("x", .vint 1)])] rfl]
  exact rfl

/-- Claim C7: non-empty parser errors abort before semantic analysis;
with a clean parse, non-empty analyzer errors abort before emission;
and within a phase errors accumulate in order instead of
short-circuiting — a document with two undefined references reports
both, and one with two malformed statements reports both. -/
theorem c7_phase_gating :
    (∀ (env : Env) (toks : List Token),
        parsedErrors (parseProgram toks) ≠ [] →
        compileTokens env toks =
          .parseFailure (parsedErrors (parseProgram toks))) ∧
    (∀ (env : Env) (toks : List Token),
        parsedErrors (parseProgram toks) = [] →
        analysisErrors env (parsedStatements (parseProgram toks)) ≠ [] →
        compileTokens env toks =
          .analysisFailure
            (analysisErrors env (parsedStatements (parseProgram toks)))) ∧
    analysisErrors emptyEnv (parsedStatements (parseProgram c7RefsDoc)) =
      ["undefined reference: global.A", "undefined reference: global.B"] ∧
    parsedErrors (parseProgram c7ParseDoc) =
      ["unexpected token: ;", "unexpected token: ;"] :=
  ⟨compileTokens_parse_gate, compileTokens_analysis_gate, rfl, rfl⟩

/-- Witness for C7: the parse gate applied to the two-bad-statements
document, and the analysis gate applied to the two-undefined-references
document. -/
theorem c7_phase_gating_witness :
    compileTokens emptyEnv c7ParseDoc =
      .parseFailure (parsedErrors (parseProgram c7ParseDoc)) ∧
    compileTokens emptyEnv c7RefsDoc =
      .analysisFailure
        (analysisErrors emptyEnv (parsedStatements (parseProgram c7RefsDoc))) := by
  constructor
  · refine c7_phase_gating.1 emptyEnv c7ParseDoc ?_
    rw [show parsedErrors (parseProgram c7ParseDoc) =
      ["unexpected token: ;", "unexpected token: ;"] from rfl]
    exact List.cons_ne_nil _ _
  · refine c7_phase_gating.2.1 emptyEnv c7RefsDoc rfl ?_
    rw [show analysisErrors emptyEnv (parsedStatements (parseProgram c7RefsDoc)) =
      ["undefined reference: global.A", "undefined reference: global.B"]
      from rfl]
    exact List.cons_ne_nil _ _

/-- Claim C8, counterexample: the claim covers numbers inside
template-string interpolation windows, but the window mini-parser hands
every number to `strconv.ParseFloat` — `${42}`, with no decimal point,
still yields a float-valued NumberLiteral, never an integer one. -/
theorem c8_counterexample :
    parseInterpolationExpression "42" = .numberLit (.float (.finite 42 0)) ∧
    ¬ ∃ i : ℤ, parseInterpolationExpression "42" = .numberLit (.int i) := by
  refine ⟨rfl, ?_⟩
  rintro ⟨i, h⟩
  rw [show parseInterpolationExpression "42" =
    .numberLit (.float (.finite 42 0)) from rfl] at h
  simp at h

/-- Claim C8 (amended): for number literals parsed by the main grammar,
the NumberLiteral holds a 64-bit integer value exactly when the source
literal contains no decimal point and a 64-bit float exactly when it
does, independent of sign; inside template-string interpolation
windows, however, numbers are always parsed as 64-bit floats. -/
theorem c8_number_literal_amended :
    (∀ (lit : String) (nv : NumValue), parseNumberLiteralValue lit = some nv →
        ((∃ i, nv = NumValue.int i) ↔ containsChar lit '.' = false)) ∧
    parseNumberLiteralValue "42" = some (.int 42) ∧
    parseNumberLiteralValue "-7" = some (.int (-7)) ∧
    parseNumberLiteralValue "3.14" = some (.float (.finite 314 2)) ∧
    parseNumberLiteralValue "-0.5" = some (.float (.finite (-5) 1)) ∧
    parseInterpolationExpression "42" = .numberLit (.float (.finite 42 0)) := by
  refine ⟨?_, rfl, rfl, rfl, rfl, rfl⟩
  intro lit nv h
  by_cases hc : containsChar lit '.'
  · rw [parseNumberLiteralValue, if_neg (by simp [hc])] at h
    match hf : goParseFloat lit with
    | none => rw [hf] at h; cases h
    | some f =>
        rw [hf] at h
        cases h
        simp [hc]
  · rw [parseNumberLiteralValue, if_pos (by simp [hc])] at h
    match hi : goParseInt0 lit with
    | none => rw [hi] at h; cases h
    | some n =>
        rw [hi] at h
        cases h
        simp only [eq_self_iff_true, Bool.not_eq_true] at hc ⊢
        exact ⟨fun _ => hc, fun _ => ⟨n, rfl⟩⟩

/-- Witness for C8: the main-grammar conjunct applied to the literal
`"42"`. -/
theorem c8_number_literal_amended_witness :
    (∃ i, NumValue.int 42 = NumValue.int i) ↔ containsChar "42" '.' = false :=
  c8_number_literal_amended.1 "42" (.int 42) rfl

/-- Claim C9, counterexample: the emitted tree's root mapping is a Go
map whose JSON serialization orders keys alphabetically, not by
insertion — `b = 1; a = 2; n = null` contributes keys in the order
`b, a, n` but serializes them as `a, b, n`. -/
theorem c9_counterexample :
    compileTokens emptyEnv c9Doc = .success c9Output ∧
    outputKeys c9Output = ["b", "a", "n"] ∧
    jsonKeys c9Output = ["a", "b", "n"] ∧
    jsonKeys c9Output ≠ outputKeys c9Output := by
  refine ⟨rfl, rfl, rfl, ?_⟩
  intro h
  rw [show jsonKeys c9Output = ["a", "b", "n"] from rfl,
    show outputKeys c9Output = ["b", "a", "n"] from rfl] at h
  simp at h

/-- Claim C9 (amended): the serialized key sequence of an emitted
mapping is the sorted permutation of the contributed keys (no key is
lost or invented, but insertion order is not preserved), and an
explicit null marker is distinct from an absent key: a key assigned
`null` is present and maps to the nil value, while an unassigned key is
absent. -/
theorem c9_output_tree_amended :
    (∀ output : Output, (jsonKeys output).Perm (outputKeys output)) ∧
    (∀ output : Output,
        (jsonKeys output).Pairwise (fun a b => goStringLe a b = true)) ∧
    compileTokens emptyEnv c9Doc = .success c9Output ∧
    jsonKeys c9Output = ["a", "b", "n"] ∧
    alistLookup c9Output "n" = some .vnil ∧
    alistLookup c9Output "zzz" = none :=
  ⟨fun _ => sortStrings_perm _, fun _ => sortStrings_pairwise _,
   rfl, rfl, rfl, rfl⟩

/-- Witness for C9: the permutation conjunct at the concrete emitted
tree. -/
theorem c9_output_tree_amended_witness :
    (jsonKeys c9Output).Perm (outputKeys c9Output) :=
  c9_output_tree_amended.1 c9Output

/-- Claim C10, counterexample: the claim quantifies over every
non-mapping value at an intermediate segment, but a stored `null` (the
nil interface) passes the emitter's `== nil` check and is replaced by a
fresh mapping instead of panicking: `x = null; #x.y { z = 2 }`
succeeds. -/
theorem c10_counterexample :
    compileTokens emptyEnv c10NullDoc =
      .success [("x", .vmap [("y", .vmap [("z", .vint 2)])])] := rfl

/-- Claim C10 (amended): when an intermediate (non-final) table-path
segment holds a non-nil, non-mapping value, the emitter's unchecked
`map[string]interface{}` type assertion fails with a runtime panic
rather than a returned error; `x = 1; #x.y { z = 2 }` crashes
compilation with the interface-conversion panic. -/
theorem c10_table_panic_amended :
    (∀ (body : List (Expression × Expression)) (out : Output) (seg r : String)
        (rs : List String) (v : GoValue),
        alistLookup out seg = some v → v ≠ .vnil → (∀ m, v ≠ .vmap m) →
        processTablePath body (seg :: r :: rs) out =
          .error (.panicked (mapAssertPanicMsg v))) ∧
    compileTokens emptyEnv c10Doc =
      .panicked
        "interface conversion: interface \x7b\x7d is int64, not map[string]interface \x7b\x7d" :=
  ⟨processTablePath_cons_panic, rfl⟩

/-- Witness for C10: the panic conjunct applied to an output tree
holding the integer `1` at the intermediate segment. -/
theorem c10_table_panic_amended_witness :
    processTablePath [(.ident "y", .numberLit (.int 2))] ["x", "y"]
        [("x", .vint 1)] =
      .error (.panicked (mapAssertPanicMsg (.vint 1))) :=
  c10_table_panic_amended.1 [(.ident "y", .numberLit (.int 2))]
    [("x", .vint 1)] "x" "y" [] (.vint 1) rfl
    (fun h => GoValue.noConfusion h) (fun _ h => GoValue.noConfusion h)

end Brace
